import Mathlib

/-!
The program cf-filler: manifest assembly, secret generation and certificate issuance

A shallow embedding of `main.go`.  Go strings are Lean strings, the Go map
`OutputData` is an association list with unique keys, and every call that
leaves the program (random source, `pkix`, PEM export, YAML marshalling) is a
field of the record `Lib`, threaded through an explicit library state.
-/

namespace CfFiller

/-! ## The manifest: `type OutputData map[string]string` -/

/-- The Go map `OutputData`: an association list holding each key at most once. -/
structure OutputData where
  entries : List (String × String)

namespace OutputData

/-- The literal `OutputData{}`. -/
def empty : OutputData := ⟨[]⟩

/-- Lookup `v, ok := o[k]`. -/
def get (o : OutputData) (k : String) : Option String :=
  (o.entries.find? (fun e => e.1 = k)).map Prod.snd

/-- The Go expression `o[k]`, which is the empty string for an absent key. -/
def index (o : OutputData) (k : String) : String :=
  (o.get k).getD ""

/-- Replace the value at `k` in a list of entries, or append a new entry. -/
def setEntries (k v : String) : List (String × String) → List (String × String)
  | [] => [(k, v)]
  | e :: rest => if e.1 = k then (k, v) :: rest else e :: setEntries k v rest

/-- The Go statement `o[k] = v`. -/
def set (o : OutputData) (k v : String) : OutputData :=
  ⟨setEntries k v o.entries⟩

/-- The keys present in the map. -/
def keys (o : OutputData) : List String :=
  o.entries.map Prod.fst

end OutputData

/-! ## Subsystem flags and `AddSystemComponent` -/

/-- Constant `CfgNone = 0` (first line of the const block, `iota = 0`). -/
def CfgNone : Nat := 0

/-- Constant `CfgWithSubdomainURI = 1 << iota` on the second line (`iota = 1`). -/
def CfgWithSubdomainURI : Nat := 1 <<< 1

/-- Constant `CfgWithHTTPSURL`, the repeated `1 << iota` on the third line (`iota = 2`). -/
def CfgWithHTTPSURL : Nat := 1 <<< 2

/-- Method `AddSystemComponent(name, cfgFlags)`; the `%s` verbs of `fmt.Sprintf`
are string concatenation. -/
def OutputData.AddSystemComponent (o : OutputData) (name : String) (cfgFlags : Nat) :
    OutputData :=
  let sysDomain := o.index "system_domain"
  let uri := name ++ "." ++ sysDomain
  let o1 := o.set (name ++ "_uri") uri
  let o2 := if cfgFlags &&& CfgWithSubdomainURI ≠ 0 then
      o1.set (name ++ "_subdomain_uri") ("*." ++ uri) else o1
  let o3 := if cfgFlags &&& CfgWithHTTPSURL ≠ 0 then
      o2.set (name ++ "_url") ("https://" ++ uri) else o2
  o3

/-! ## Secrets: `encoding/base64`, `strings.Trim` and `generatePassword` -/

/-- The alphabet `encodeURL` of Go's `encoding/base64`. -/
def encodeURL : List Char :=
  "ABCDEFGHIJKLMNOPQRSTUVWXYZabcdefghijklmnopqrstuvwxyz0123456789-_".data

/-- The table lookup `enc.encode[i]`. -/
def encChar (i : Nat) : Char := encodeURL.getD i 'A'

/-- The loop of `(*Encoding).Encode` for an encoding without padding
(`RawURLEncoding`): three source bytes give four characters, a remainder of two
bytes gives three and a remainder of one byte gives two. -/
def rawURLEncode : List Nat → List Char
  | b0 :: b1 :: b2 :: rest =>
    let val := ((b0 <<< 16) ||| (b1 <<< 8)) ||| b2
    encChar ((val >>> 18) &&& 0x3F) :: encChar ((val >>> 12) &&& 0x3F)
      :: encChar ((val >>> 6) &&& 0x3F) :: encChar (val &&& 0x3F) :: rawURLEncode rest
  | [b0, b1] =>
    let val := (b0 <<< 16) ||| (b1 <<< 8)
    [encChar ((val >>> 18) &&& 0x3F), encChar ((val >>> 12) &&& 0x3F),
      encChar ((val >>> 6) &&& 0x3F)]
  | [b0] =>
    let val := b0 <<< 16
    [encChar ((val >>> 18) &&& 0x3F), encChar ((val >>> 12) &&& 0x3F)]
  | [] => []

/-- The call `base64.RawURLEncoding.EncodeToString(bytes)`. -/
def EncodeToString (bytes : List Nat) : String := ⟨rawURLEncode bytes⟩

/-- The left half of `strings.Trim`: drop the leading characters of the cutset. -/
def trimLeft (cutset : List Char) (s : List Char) : List Char :=
  s.dropWhile (fun c => decide (c ∈ cutset))

/-- The right half of `strings.Trim`: drop the trailing characters of the cutset. -/
def trimRight (cutset : List Char) (s : List Char) : List Char :=
  (s.reverse.dropWhile (fun c => decide (c ∈ cutset))).reverse

/-- The call `strings.Trim(s, cutset)`. -/
def Trim (s cutset : String) : String :=
  ⟨trimLeft cutset.data (trimRight cutset.data s.data)⟩

/-- The return expression of `generatePassword`, as a function of the bytes that
`rand.Read` left in the buffer. -/
def passwordFromBytes (bytes : List Nat) : String :=
  Trim (EncodeToString bytes) "-_"

/-- The buffer `buf` after a read that delivered `data`: the bytes delivered
overwrite the front of the buffer, the rest of the buffer is kept. -/
def readInto (buf data : List Nat) : List Nat :=
  (data.take buf.length).map (fun b => b % 256) ++ buf.drop data.length

/-! ## The world outside the program -/

/-- The calls that leave the program.  Pointers that may be nil are options;
a call that returns `(value, error)` returns `Except`; calls that draw on the
random source or the clock thread the library state `σ`. -/
structure Lib (σ Key Cert CSR : Type) where
  /-- Stands for `rand.Read(p)` with `len(p)` as first argument. -/
  randRead : Nat → σ → Except String (List Nat) × σ
  /-- Stands for `pkix.CreateRSAKey(bits)`. -/
  CreateRSAKey : Nat → σ → Except String Key × σ
  /-- Stands for `pkix.CreateCertificateAuthority(key, organizationalUnit, years,
  organization, country, province, locality, commonName)`. -/
  CreateCertificateAuthority : Option Key → String → Nat → String → String → String →
    String → String → σ → Except String Cert × σ
  /-- Stands for `pkix.CreateCertificateSigningRequest(key, organizationalUnit, ipList,
  domainList, organization, country, province, locality, commonName)`. -/
  CreateCertificateSigningRequest : Option Key → String → List String → List String →
    String → String → String → String → String → σ → Except String CSR × σ
  /-- Stands for `pkix.CreateCertificateHost(crtAuth, keyAuth, csr, years)`. -/
  CreateCertificateHost : Option Cert → Option Key → CSR → Nat → σ → Except String Cert × σ
  /-- Stands for `(*pkix.Certificate).Export()`. -/
  Export : Option Cert → Except String String
  /-- Stands for `(*pkix.Key).ExportPrivate()`. -/
  ExportPrivate : Option Key → Except String String
  /-- Stands for `yaml.Marshal(o)`. -/
  Marshal : OutputData → Except String String

/-- How a Go call ends: it returns a value or it panics with a value. -/
inductive Outcome (α : Type) where
  | ok (val : α)
  | panic (value : String)

/-- A Go `error`: `none` is `nil`, `some msg` an error whose `Error()` is `msg`. -/
abbrev GoError := Option String

section Program

variable {σ Key Cert CSR : Type}

/-- Function `generatePassword`. -/
def generatePassword (L : Lib σ Key Cert CSR) (s : σ) : Outcome String × σ :=
  match L.randRead 16 s with
  | (.error err, s1) => (.panic ("unable to read rand bytes: " ++ err), s1)
  | (.ok data, s1) => (.ok (passwordFromBytes (readInto (List.replicate 16 0) data)), s1)

/-- Method `GeneratePasswords(keynames...)`. -/
def GeneratePasswords (L : Lib σ Key Cert CSR) (o : OutputData) :
    List String → σ → Outcome OutputData × σ
  | [], s => (.ok o, s)
  | name :: rest, s =>
    match generatePassword L s with
    | (.panic v, s1) => (.panic v, s1)
    | (.ok pw, s1) => GeneratePasswords L (o.set name pw) rest s1

/-! ## Certificates -/

/-- Constant `KeyBits`. -/
def KeyBits : Nat := 2048

/-- Constant `CAExpiryYears`. -/
def CAExpiryYears : Nat := 10

/-- Constant `HostCertExpiryYears`. -/
def HostCertExpiryYears : Nat := 2

/-- The struct `CA`. -/
structure CA (Key Cert : Type) where
  VarName_CA : String
  CommonName : String
  key : Option Key
  cert : Option Cert

/-- The struct `CertKeyPair`. -/
structure CertKeyPair (Key Cert : Type) where
  VarName_Cert : String
  VarName_Key : String
  CommonName : String
  Domains : List String
  key : Option Key
  cert : Option Cert

/-- Method `(*CA).Init`: the error returned, the receiver afterwards, the state. -/
def CA.Init (L : Lib σ Key Cert CSR) (ca : CA Key Cert) (s : σ) :
    GoError × CA Key Cert × σ :=
  match L.CreateRSAKey KeyBits s with
  | (.error err, s1) => (some ("create ca key: " ++ err), { ca with key := none }, s1)
  | (.ok k, s1) =>
    match L.CreateCertificateAuthority (some k) "" CAExpiryYears "" "" "" ""
        ca.CommonName s1 with
    | (.error err, s2) =>
      (some ("create ca cert: " ++ err), { ca with key := some k, cert := none }, s2)
    | (.ok c, s2) => (none, { ca with key := some k, cert := some c }, s2)

/-- Function `asString`, called on a certificate. -/
def asString (L : Lib σ Key Cert CSR) (e : Option Cert) : Except String String :=
  match L.Export e with
  | .error err => .error ("export pem: " ++ err)
  | .ok pemBytes => .ok pemBytes

/-- Method `(*CA).CACertAsString`. -/
def CA.CACertAsString (L : Lib σ Key Cert CSR) (ca : CA Key Cert) : Except String String :=
  asString L ca.cert

/-- Method `(*CA).InitCertKeyPair`: the error returned, the leaf afterwards, the
state.  The receiver is an initialized CA, as at its one call site in
`GenerateCerts`: what `pkix.CreateCertificateHost` does with a nil `ca.cert` is
left to the library and is not the return of an error. -/
def CA.InitCertKeyPair (L : Lib σ Key Cert CSR) (ca : CA Key Cert)
    (certKeyPair : CertKeyPair Key Cert) (s : σ) : GoError × CertKeyPair Key Cert × σ :=
  match L.CreateRSAKey KeyBits s with
  | (.error err, s1) =>
    (some ("create host key: " ++ err), { certKeyPair with key := none }, s1)
  | (.ok k, s1) =>
    match L.CreateCertificateSigningRequest (some k) "" [] certKeyPair.Domains "" "" "" ""
        certKeyPair.CommonName s1 with
    | (.error err, s2) =>
      (some ("create host csr: " ++ err), { certKeyPair with key := some k }, s2)
    | (.ok csr, s2) =>
      match L.CreateCertificateHost ca.cert ca.key csr HostCertExpiryYears s2 with
      | (.error err, s3) =>
        (some ("sign host csr: " ++ err), { certKeyPair with key := some k, cert := none }, s3)
      | (.ok c, s3) => (none, { certKeyPair with key := some k, cert := some c }, s3)

/-- Method `(*CertKeyPair).PrivateKeyAsString`. -/
def CertKeyPair.PrivateKeyAsString (L : Lib σ Key Cert CSR) (kp : CertKeyPair Key Cert) :
    Except String String :=
  match L.ExportPrivate kp.key with
  | .error err => .error ("export private key: " ++ err)
  | .ok pemBytes => .ok pemBytes

/-- Method `(*CertKeyPair).CertAsString`. -/
def CertKeyPair.CertAsString (L : Lib σ Key Cert CSR) (kp : CertKeyPair Key Cert) :
    Except String String :=
  asString L kp.cert

/-- The `for` loop of `GenerateCerts` over the leaf requests: the map and the
leaves afterwards. -/
def GenerateCerts.loop (L : Lib σ Key Cert CSR) (ca : CA Key Cert) :
    OutputData → List (CertKeyPair Key Cert) → σ →
      Outcome (OutputData × List (CertKeyPair Key Cert)) × σ
  | o, [], s => (.ok (o, []), s)
  | o, certKeyPair :: rest, s =>
    match ca.InitCertKeyPair L certKeyPair s with
    | (some err, _, s1) => (.panic err, s1)
    | (none, kp1, s1) =>
      match kp1.CertAsString L with
      | .error err => (.panic err, s1)
      | .ok certPem =>
        match kp1.PrivateKeyAsString L with
        | .error err => (.panic err, s1)
        | .ok keyPem =>
          match GenerateCerts.loop L ca
              ((o.set kp1.VarName_Cert certPem).set kp1.VarName_Key keyPem) rest s1 with
          | (.panic v, s2) => (.panic v, s2)
          | (.ok (o2, kps), s2) => (.ok (o2, kp1 :: kps), s2)

/-- Method `GenerateCerts(ca, certKeyPairs...)`: the map, the CA and the leaves
afterwards; a failed step panics with its error. -/
def GenerateCerts (L : Lib σ Key Cert CSR) (o : OutputData) (ca : CA Key Cert)
    (certKeyPairs : List (CertKeyPair Key Cert)) (s : σ) :
    Outcome (OutputData × CA Key Cert × List (CertKeyPair Key Cert)) × σ :=
  match ca.Init L s with
  | (some err, _, s1) => (.panic err, s1)
  | (none, ca1, s1) =>
    match ca1.CACertAsString L with
    | .error err => (.panic err, s1)
    | .ok caPem =>
      match GenerateCerts.loop L ca1 (o.set ca1.VarName_CA caPem) certKeyPairs s1 with
      | (.panic v, s2) => (.panic v, s2)
      | (.ok (o2, kps), s2) => (.ok (o2, ca1, kps), s2)

/-! ## `mainWithError` and `main` -/

/-- Lines 65 to 81 of `mainWithError`: the domain, URI and URL fields. -/
def uriFields (envName dnsBaseName : String) : OutputData :=
  let dnsName := envName ++ "." ++ dnsBaseName
  let o := OutputData.empty
  let system_domain := dnsName
  let o := o.set "system_domain" system_domain
  let o := o.set "app_domain" dnsName
  let o := o.AddSystemComponent "uaa" (CfgWithSubdomainURI ||| CfgWithHTTPSURL)
  let o := o.set "uaa_token_url" ("https://" ++ o.index "uaa_uri" ++ "/oauth/token")
  let o := o.AddSystemComponent "login" CfgWithSubdomainURI
  let o := o.AddSystemComponent "api" CfgWithHTTPSURL
  let o := o.AddSystemComponent "loggregator" CfgNone
  let o := o.AddSystemComponent "doppler" CfgWithSubdomainURI
  let o := o.AddSystemComponent "blobstore" CfgNone
  let o := o.set "blobstore_public_url" ("http://" ++ o.index "blobstore_uri")
  let o := o.set "blobstore_private_url" "https://blobstore.service.cf.internal:4443"
  let o := o.set "metron_agent_deployment_name" (envName ++ "-cf")
  o

/-- The arguments of the call `o.GeneratePasswords(...)` at lines 83 to 115. -/
def secretFields : List String :=
  [ "blobstore_admin_users_password",
    "blobstore_secure_link_secret",
    "cc_bulk_api_password",
    "cc_db_encryption_key",
    "cc_internal_api_password",
    "cc_staging_upload_password",
    "cf_mysql_mysql_admin_password",
    "cf_mysql_mysql_cluster_health_password",
    "cf_mysql_mysql_galera_healthcheck_endpoint_password",
    "cf_mysql_mysql_galera_healthcheck_password",
    "cf_mysql_mysql_roadmin_password",
    "cf_mysql_mysql_seeded_databases_cc_password",
    "cf_mysql_mysql_seeded_databases_diego_password",
    "cf_mysql_mysql_seeded_databases_uaa_password",
    "nats_password",
    "router_status_password",
    "uaa_scim_users_admin_password",
    "dropsonde_shared_secret",
    "router_route_services_secret",
    "uaa_admin_client_secret",
    "uaa_clients_cc-routing_secret",
    "uaa_clients_cc-service-dashboards_secret",
    "uaa_clients_cloud_controller_username_lookup_secret",
    "uaa_clients_doppler_secret",
    "uaa_clients_gorouter_secret",
    "uaa_clients_ssh-proxy_secret",
    "uaa_clients_tcp_emitter_secret",
    "uaa_clients_tcp_router_secret",
    "uaa_login_client_secret",
    "consul_encrypt_keys",
    "diego_bbs_encryption_keys_passphrase" ]

/-- Lines 117 to 125 of `mainWithError`: the fixed user names. -/
def userFields (o : OutputData) : OutputData :=
  let o := o.set "uaa_scim_users_admin_name" "admin"
  let o := o.set "blobstore_admin_users_username" "blobstore-user"
  let o := o.set "cc_staging_upload_user" "staging_user"
  let o := o.set "cf_mysql_mysql_galera_healthcheck_endpoint_username" "galera_healthcheck"
  let o := o.set "cf_mysql_mysql_seeded_databases_cc_username" "cloud_controller"
  let o := o.set "cf_mysql_mysql_seeded_databases_diego_username" "diego"
  let o := o.set "cf_mysql_mysql_seeded_databases_uaa_username" "uaa"
  let o := o.set "nats_user" "nats"
  let o := o.set "router_status_user" "router-status"
  o

/-- The literal `&CA{...}` of the first `GenerateCerts` call. -/
def etcdCA : CA Key Cert :=
  { VarName_CA := "etcd_ca_cert", CommonName := "etcdCA", key := none, cert := none }

/-- The first `&CertKeyPair{...}` of the first `GenerateCerts` call. -/
def etcdServer : CertKeyPair Key Cert :=
  { VarName_Cert := "etcd_server_cert", VarName_Key := "etcd_server_key",
    CommonName := "etcd.service.cf.internal",
    Domains := ["*.etcd.service.cf.internal", "etcd.service.cf.internal"],
    key := none, cert := none }

/-- The second `&CertKeyPair{...}` of the first `GenerateCerts` call. -/
def etcdClient : CertKeyPair Key Cert :=
  { VarName_Cert := "etcd_client_cert", VarName_Key := "etcd_client_key",
    CommonName := "clientName", Domains := [], key := none, cert := none }

/-- The literal `&CA{...}` of the second `GenerateCerts` call. -/
def etcdPeerCA : CA Key Cert :=
  { VarName_CA := "etcd_peer_ca_cert", CommonName := "peerCA", key := none, cert := none }

/-- The `&CertKeyPair{...}` of the second `GenerateCerts` call. -/
def etcdPeer : CertKeyPair Key Cert :=
  { VarName_Cert := "etcd_peer_cert", VarName_Key := "etcd_peer_key",
    CommonName := "etcd.service.cf.internal",
    Domains := ["*.etcd.service.cf.internal", "etcd.service.cf.internal"],
    key := none, cert := none }

/-- Lines 65 to 161 of `mainWithError`: the manifest `o` as it stands when
`yaml.Marshal` is reached, for the flag values `envName` and `dnsBaseName`. -/
def assemble (L : Lib σ Key Cert CSR) (envName dnsBaseName : String) (s : σ) :
    Outcome OutputData × σ :=
  match GeneratePasswords L (uriFields envName dnsBaseName) secretFields s with
  | (.panic v, s1) => (.panic v, s1)
  | (.ok o1, s1) =>
    match GenerateCerts L (userFields o1) etcdCA [etcdServer, etcdClient] s1 with
    | (.panic v, s2) => (.panic v, s2)
    | (.ok (o2, _, _), s2) =>
      match GenerateCerts L o2 etcdPeerCA [etcdPeer] s2 with
      | (.panic v, s3) => (.panic v, s3)
      | (.ok (o3, _, _), s3) => (.ok o3, s3)

/-- The process: the library state and what has been written to the two output
streams, one entry per write of the program and one entry for a report of the
Go runtime. -/
structure World (σ : Type) where
  lib : σ
  stdout : List String
  stderr : List String

/-- Function `mainWithError`, after `flag.Parse` has delivered `envName` and
`dnsBaseName`. -/
def mainWithError (L : Lib σ Key Cert CSR) (envName dnsBaseName : String) (w : World σ) :
    Outcome GoError × World σ :=
  match assemble L envName dnsBaseName w.lib with
  | (.panic v, s) => (.panic v, { w with lib := s })
  | (.ok o, s) =>
    match L.Marshal o with
    | .error err => (.ok (some ("marshaling output as yaml: " ++ err)), { w with lib := s })
    | .ok outBytes => (.ok none, { w with lib := s, stdout := w.stdout ++ [outBytes] })

/-- How the process ends: `os.Exit(code)` or a return from `main` (code 0), or
a panic that nothing recovers. -/
inductive Termination where
  | exited (code : Nat)
  | panicked (value : String)

/-- The exit status the operating system sees; the Go runtime ends a process
whose panic is not recovered with status 2. -/
def Termination.status : Termination → Nat
  | .exited code => code
  | .panicked _ => 2

/-- Function `main`, for a run in which `flag.Parse` returns and delivers
`envName` and `dnsBaseName`; a run that the `flag` package ends itself (an
unknown flag, `-h`) is no run of this definition.  A panic that reaches `main`
is not recovered: the Go runtime writes its report to standard error, the text
`panic: ` followed by `report v`, its rendering of the value and of the
goroutines, and ends the process. -/
def main (L : Lib σ Key Cert CSR) (report : String → String) (envName dnsBaseName : String)
    (w : World σ) : Termination × World σ :=
  match mainWithError L envName dnsBaseName w with
  | (.panic v, w1) => (.panicked v, { w1 with stderr := w1.stderr ++ ["panic: " ++ report v] })
  | (.ok (some err), w1) =>
    (.exited 1, { w1 with stderr := w1.stderr ++ ["error: " ++ err ++ "\n"] })
  | (.ok none, w1) => (.exited 0, w1)

end Program

/-! ## Reading the manifest -/

/-- The keys of a map after an assignment to `k`. -/
def insertKey (k : String) (ks : List String) : List String :=
  if k ∈ ks then ks else ks ++ [k]

/-- The fields the loop of `GenerateCerts` assigns, in order. -/
def leafFields {Key Cert : Type} : List (CertKeyPair Key Cert) → List String
  | [] => []
  | kp :: rest => kp.VarName_Cert :: kp.VarName_Key :: leafFields rest

/-- The fields assigned by the two `GenerateCerts` calls of `mainWithError`. -/
def pemFields : List String :=
  [ "etcd_ca_cert", "etcd_server_cert", "etcd_server_key", "etcd_client_cert",
    "etcd_client_key", "etcd_peer_ca_cert", "etcd_peer_cert", "etcd_peer_key" ]

/-- The fields assigned by lines 117 to 125. -/
def userFieldNames : List String :=
  [ "uaa_scim_users_admin_name", "blobstore_admin_users_username", "cc_staging_upload_user",
    "cf_mysql_mysql_galera_healthcheck_endpoint_username",
    "cf_mysql_mysql_seeded_databases_cc_username",
    "cf_mysql_mysql_seeded_databases_diego_username",
    "cf_mysql_mysql_seeded_databases_uaa_username", "nats_user", "router_status_user" ]

/-- The fields assigned by lines 69 to 81. -/
def uriFieldNames : List String :=
  [ "system_domain", "app_domain", "uaa_uri", "uaa_subdomain_uri", "uaa_url", "uaa_token_url",
    "login_uri", "login_subdomain_uri", "api_uri", "api_url", "loggregator_uri",
    "doppler_uri", "doppler_subdomain_uri", "blobstore_uri", "blobstore_public_url",
    "blobstore_private_url", "metron_agent_deployment_name" ]

/-- Every field of the manifest, in the order of first assignment. -/
def manifestKeys : List String :=
  uriFieldNames ++ secretFields ++ userFieldNames ++ pemFields

/-- Whether `s` ends in `suffix`. -/
def hasSuffix (s suffix : String) : Bool :=
  suffix.data.isSuffixOf s.data

/-- The CA certificate fields of a manifest: the keys ending in `_ca_cert`. -/
def caCertFields (o : OutputData) : List String :=
  o.keys.filter (fun k => hasSuffix k "_ca_cert")

/-- The leaf certificate fields of a manifest: the keys ending in `_cert` that are
not CA certificate fields. -/
def leafCertFields (o : OutputData) : List String :=
  o.keys.filter (fun k => hasSuffix k "_cert" && !hasSuffix k "_ca_cert")

/-- The leaf certificate/key pairs of a manifest: each leaf certificate field
`x_cert` whose key field `x_key` is present, with that key field. -/
def leafPairs (o : OutputData) : List (String × String) :=
  (leafCertFields o).filterMap (fun c =>
    let keyField := String.mk (c.data.take (c.data.length - 5)) ++ "_key"
    if keyField ∈ o.keys then some (c, keyField) else none)

/-- The prefixes `fmt.Errorf` and `panic` put before the library's message at
the generation steps. -/
def stepPrefixes : List String :=
  [ "unable to read rand bytes: ", "create ca key: ", "create ca cert: ", "export pem: ",
    "create host key: ", "create host csr: ", "sign host csr: ", "export private key: " ]

/-! ## A concrete library for running the program -/

/-- A certificate of the test library: a record of what it was built from. -/
structure TestCert where
  subject : String
  issuer : String
  signer : Option Nat
  dnsNames : List String
  isCA : Bool
  years : Nat

/-- A signing request of the test library: a record of what it was built from. -/
structure TestCSR where
  key : Option Nat
  dnsNames : List String
  commonName : String

/-- A library for concrete runs.  The state counts the calls made, a key is the
number of the call that made it and a read delivers copies of the low byte of
the counter; key generation fails once `keyBudget` calls have been made and
`yamlWorks = false` makes marshalling fail. -/
def testLib (keyBudget : Nat) (yamlWorks : Bool) : Lib Nat Nat TestCert TestCSR where
  randRead n s := (.ok (List.replicate n (s % 256)), s + 1)
  CreateRSAKey _ s := if s < keyBudget then (.ok s, s + 1) else (.error "no entropy", s + 1)
  CreateCertificateAuthority key _ years _ _ _ _ cn s :=
    (.ok { subject := cn, issuer := cn, signer := key, dnsNames := [], isCA := true,
           years := years }, s + 1)
  CreateCertificateSigningRequest key _ _ doms _ _ _ _ cn s :=
    (.ok { key := key, dnsNames := doms, commonName := cn }, s + 1)
  CreateCertificateHost crtAuth keyAuth csr years s :=
    match crtAuth with
    | none => (.error "no issuer", s + 1)
    | some ca =>
      (.ok { subject := csr.commonName, issuer := ca.subject, signer := keyAuth,
             dnsNames := csr.dnsNames, isCA := false, years := years }, s + 1)
  Export c :=
    match c with
    | none => .error "no certificate"
    | some c => .ok ("CERTIFICATE " ++ c.subject)
  ExportPrivate k :=
    match k with
    | none => .error "no key"
    | some _ => .ok "RSA PRIVATE KEY"
  Marshal o :=
    if yamlWorks then .ok (String.join (o.entries.map fun e => e.1 ++ ": " ++ e.2 ++ "\n"))
    else .error "cannot marshal"

/-- The first CA of `mainWithError`, initialized by `Init` with a library whose
key generation works once only. -/
def testCA : CA Nat TestCert :=
  (CA.Init (testLib 1 true) etcdCA 0).2.1

/-- The manifest of the run with the default flags and the test library started
in state `s`. -/
def testManifest (s : Nat) : OutputData :=
  match (assemble (testLib 1000 true) "myenv" "example.com" s).1 with
  | .ok o => o
  | .panic _ => OutputData.empty

/-! ## Lemmas on the map -/

theorem find_setEntries_same (k v : String) (l : List (String × String)) :
    ((OutputData.setEntries k v l).find? (fun e => e.1 = k)).map Prod.snd = some v := by
  induction l with
  | nil => simp [OutputData.setEntries]
  | cons e rest ih =>
    unfold OutputData.setEntries
    by_cases h : e.1 = k
    · simp [h]
    · simp [h, ih]

theorem find_setEntries_other (k v k2 : String) (h : k2 ≠ k) (l : List (String × String)) :
    (OutputData.setEntries k v l).find? (fun e => e.1 = k2)
      = l.find? (fun e => e.1 = k2) := by
  induction l with
  | nil => simp [OutputData.setEntries, Ne.symm h]
  | cons e rest ih =>
    unfold OutputData.setEntries
    by_cases h1 : e.1 = k
    · have h2 : ¬ e.1 = k2 := fun h3 => h (h3 ▸ h1)
      rw [if_pos h1]
      simp [h2, Ne.symm h]
    · rw [if_neg h1]
      by_cases h2 : e.1 = k2
      · simp [h2]
      · simp [h2, ih]

theorem get_set_same (o : OutputData) (k v : String) : (o.set k v).get k = some v :=
  find_setEntries_same k v o.entries

theorem get_set_other (o : OutputData) (k v k2 : String) (h : k2 ≠ k) :
    (o.set k v).get k2 = o.get k2 := by
  unfold OutputData.get OutputData.set
  rw [find_setEntries_other k v k2 h]

theorem mem_keys_setEntries (k v k2 : String) (l : List (String × String)) :
    k2 ∈ (OutputData.setEntries k v l).map Prod.fst ↔ k2 ∈ l.map Prod.fst ∨ k2 = k := by
  induction l with
  | nil => simp [OutputData.setEntries]
  | cons e rest ih =>
    unfold OutputData.setEntries
    by_cases h1 : e.1 = k
    · simp only [h1, if_true, List.map_cons, List.mem_cons]
      tauto
    · simp only [h1, if_false, List.map_cons, List.mem_cons, ih]
      tauto

theorem mem_keys_set (o : OutputData) (k v k2 : String) :
    k2 ∈ (o.set k v).keys ↔ k2 ∈ o.keys ∨ k2 = k :=
  mem_keys_setEntries k v k2 o.entries

/-- Two concatenations with the same left part differ when the right parts do. -/
theorem append_ne_append (name s t : String) (h : s ≠ t) : name ++ s ≠ name ++ t := by
  intro heq
  apply h
  have h1 := congrArg String.data heq
  simp only [String.data_append] at h1
  exact String.ext (List.append_cancel_left h1)

/-- A key that does not end in `s` is not `name ++ s`. -/
theorem ne_append_of_not_suffix (k name s : String) (h : ¬ s.data <:+ k.data) :
    k ≠ name ++ s := by
  intro heq
  apply h
  rw [heq, String.data_append]
  exact List.suffix_append _ _



/-! ## C1: `AddSystemComponent` -/

theorem uri_ne_subdomain (name : String) : name ++ "_uri" ≠ name ++ "_subdomain_uri" :=
  append_ne_append name _ _ (by decide)

theorem uri_ne_url (name : String) : name ++ "_uri" ≠ name ++ "_url" :=
  append_ne_append name _ _ (by decide)

theorem subdomain_ne_url (name : String) : name ++ "_subdomain_uri" ≠ name ++ "_url" :=
  append_ne_append name _ _ (by decide)

/-- The map after `AddSystemComponent`, as a chain of assignments. -/
theorem AddSystemComponent_eq (o : OutputData) (name : String) (cfgFlags : Nat) :
    o.AddSystemComponent name cfgFlags =
      (fun o2 : OutputData => if cfgFlags &&& CfgWithHTTPSURL ≠ 0 then
          o2.set (name ++ "_url") ("https://" ++ (name ++ "." ++ o.index "system_domain"))
        else o2)
      ((fun o1 : OutputData => if cfgFlags &&& CfgWithSubdomainURI ≠ 0 then
          o1.set (name ++ "_subdomain_uri") ("*." ++ (name ++ "." ++ o.index "system_domain"))
        else o1)
      (o.set (name ++ "_uri") (name ++ "." ++ o.index "system_domain"))) := rfl

/-- C1: for each of the four supported flag combinations `AddSystemComponent`
sets `<name>_uri` to `name + "." + o["system_domain"]`, sets `<name>_subdomain_uri`
to `"*." + uri` exactly when the subdomain flag is set and `<name>_url` to
`"https://" + uri` exactly when the HTTPS flag is set (a field whose flag is not
set keeps its previous value or absence), leaves every other key, `system_domain`
among them, as it was, and the keys of the map afterwards are the previous keys
and the keys so written. -/
theorem AddSystemComponent_exact (o : OutputData) (name : String) (cfgFlags : Nat)
    (hflags : cfgFlags ∈ [CfgNone, CfgWithSubdomainURI, CfgWithHTTPSURL,
      CfgWithSubdomainURI ||| CfgWithHTTPSURL]) :
    (cfgFlags &&& CfgWithSubdomainURI ≠ 0 ↔
        cfgFlags = CfgWithSubdomainURI ∨ cfgFlags = CfgWithSubdomainURI ||| CfgWithHTTPSURL)
    ∧ (cfgFlags &&& CfgWithHTTPSURL ≠ 0 ↔
        cfgFlags = CfgWithHTTPSURL ∨ cfgFlags = CfgWithSubdomainURI ||| CfgWithHTTPSURL)
    ∧ (o.AddSystemComponent name cfgFlags).get (name ++ "_uri")
        = some (name ++ "." ++ o.index "system_domain")
    ∧ (o.AddSystemComponent name cfgFlags).get (name ++ "_subdomain_uri")
        = (if cfgFlags &&& CfgWithSubdomainURI ≠ 0
            then some ("*." ++ (name ++ "." ++ o.index "system_domain"))
            else o.get (name ++ "_subdomain_uri"))
    ∧ (o.AddSystemComponent name cfgFlags).get (name ++ "_url")
        = (if cfgFlags &&& CfgWithHTTPSURL ≠ 0
            then some ("https://" ++ (name ++ "." ++ o.index "system_domain"))
            else o.get (name ++ "_url"))
    ∧ (∀ k, k ≠ name ++ "_uri" → k ≠ name ++ "_subdomain_uri" → k ≠ name ++ "_url" →
        (o.AddSystemComponent name cfgFlags).get k = o.get k)
    ∧ (o.AddSystemComponent name cfgFlags).get "system_domain" = o.get "system_domain"
    ∧ (∀ k, k ∈ (o.AddSystemComponent name cfgFlags).keys ↔
        (k ∈ o.keys ∨ k = name ++ "_uri"
          ∨ (cfgFlags &&& CfgWithSubdomainURI ≠ 0 ∧ k = name ++ "_subdomain_uri")
          ∨ (cfgFlags &&& CfgWithHTTPSURL ≠ 0 ∧ k = name ++ "_url"))) := by
  have hus := uri_ne_subdomain name
  have huu := uri_ne_url name
  have hsu := subdomain_ne_url name
  have hother : ∀ k, k ≠ name ++ "_uri" → k ≠ name ++ "_subdomain_uri" →
      k ≠ name ++ "_url" → (o.AddSystemComponent name cfgFlags).get k = o.get k := by
    intro k h1 h2 h3
    rw [AddSystemComponent_eq]
    dsimp only
    split_ifs <;> simp only [
        get_set_other _ _ _ _ h1, get_set_other _ _ _ _ h2, get_set_other _ _ _ _ h3]
  refine ⟨?_, ?_, ?_, ?_, ?_, hother, ?_, ?_⟩
  · simp only [List.mem_cons, List.mem_singleton, List.not_mem_nil, or_false] at hflags
    rcases hflags with h | h | h | h <;> subst h <;> decide
  · simp only [List.mem_cons, List.mem_singleton, List.not_mem_nil, or_false] at hflags
    rcases hflags with h | h | h | h <;> subst h <;> decide
  · rw [AddSystemComponent_eq]
    dsimp only
    split_ifs <;> simp only [
        get_set_other _ _ _ _ hus, get_set_other _ _ _ _ huu, get_set_same]
  · rw [AddSystemComponent_eq]
    dsimp only
    split_ifs <;> simp only [
        get_set_other _ _ _ _ hsu, get_set_other _ _ _ _ hus.symm, get_set_same]
  · rw [AddSystemComponent_eq]
    dsimp only
    split_ifs <;> simp only [
        get_set_other _ _ _ _ hsu.symm, get_set_other _ _ _ _ huu.symm, get_set_same]
  · exact hother "system_domain"
      (ne_append_of_not_suffix _ _ _ (by decide))
      (ne_append_of_not_suffix _ _ _ (by decide))
      (ne_append_of_not_suffix _ _ _ (by decide))
  · intro k
    rw [AddSystemComponent_eq]
    dsimp only
    split_ifs with hs hh hh <;>
      simp only [hs, hh, mem_keys_set, true_and, false_and, or_false, ne_eq,
        not_false_eq_true, not_true_eq_false] <;> tauto

/-- C1 at a concrete input: the component `uaa` with both flags on a map that
holds `system_domain`. -/
theorem AddSystemComponent_exact_witness :
    ((OutputData.empty.set "system_domain" "myenv.example.com").AddSystemComponent "uaa"
        (CfgWithSubdomainURI ||| CfgWithHTTPSURL)).get ("uaa" ++ "_url")
      = some "https://uaa.myenv.example.com" := by
  have h := (AddSystemComponent_exact (OutputData.empty.set "system_domain" "myenv.example.com")
    "uaa" (CfgWithSubdomainURI ||| CfgWithHTTPSURL) (by decide)).2.2.2.2.1
  rw [h]
  decide

/-! ## C3 and C8: the secret built from sixteen bytes -/

theorem encodeURL_length : encodeURL.length = 64 := by decide

theorem encChar_mem (i : Nat) : encChar i ∈ encodeURL := by
  unfold encChar
  by_cases h : i < 64
  · interval_cases i <;> decide
  · have hlen : encodeURL.length ≤ i := by rw [encodeURL_length]; omega
    rw [List.getD_eq_default _ _ hlen]
    decide

theorem indexOf_encChar : ∀ i, i < 64 → encodeURL.indexOf (encChar i) = i := by decide

theorem encChar_inj (i j : Nat) (hi : i < 64) (hj : j < 64) (h : encChar i = encChar j) :
    i = j := by
  have h1 := indexOf_encChar i hi
  rw [h, indexOf_encChar j hj] at h1
  exact h1.symm

theorem encChar_not_trimmed : ∀ i, i < 62 → encChar i ≠ '-' ∧ encChar i ≠ '_' := by decide

theorem and_63 (x : Nat) : x &&& 0x3F = x % 64 :=
  Nat.and_pow_two_sub_one_eq_mod x 6

/-- The 24-bit group of three bytes, as a sum. -/
theorem group_eq (a b c : Nat) (hb : b < 256) (hc : c < 256) :
    ((a <<< 16) ||| (b <<< 8)) ||| c = a * 65536 + b * 256 + c := by
  have h1 : (a <<< 16) ||| (b <<< 8) = a * 65536 + b * 256 := by
    have hlt : b * 256 < 2 ^ 16 := by omega
    have := Nat.mul_add_lt_is_or hlt a
    rw [Nat.shiftLeft_eq, Nat.shiftLeft_eq]
    rw [show a * 2 ^ 16 = 2 ^ 16 * a by ring, show b * 2 ^ 8 = b * 256 by norm_num]
    rw [← this]
    ring
  rw [h1]
  have hlt : c < 2 ^ 8 := by omega
  have := Nat.mul_add_lt_is_or hlt (a * 256 + b)
  rw [show a * 65536 + b * 256 = 2 ^ 8 * (a * 256 + b) by ring]
  exact this.symm


theorem idx0_eq (a b c : Nat) (ha : a < 256) (hb : b < 256) (hc : c < 256) :
    ((((a <<< 16) ||| (b <<< 8)) ||| c) >>> 18) &&& 0x3F = a / 4 := by
  rw [group_eq a b c hb hc, and_63, Nat.shiftRight_eq_div_pow]
  norm_num
  omega

theorem idx1_eq (a b c : Nat) (hb : b < 256) (hc : c < 256) :
    ((((a <<< 16) ||| (b <<< 8)) ||| c) >>> 12) &&& 0x3F = a % 4 * 16 + b / 16 := by
  rw [group_eq a b c hb hc, and_63, Nat.shiftRight_eq_div_pow]
  norm_num
  omega

theorem idx2_eq (a b c : Nat) (hb : b < 256) (hc : c < 256) :
    ((((a <<< 16) ||| (b <<< 8)) ||| c) >>> 6) &&& 0x3F = b % 16 * 4 + c / 64 := by
  rw [group_eq a b c hb hc, and_63, Nat.shiftRight_eq_div_pow]
  norm_num
  omega

theorem idx3_eq (a b c : Nat) (hb : b < 256) (hc : c < 256) :
    (((a <<< 16) ||| (b <<< 8)) ||| c) &&& 0x3F = c % 64 := by
  rw [group_eq a b c hb hc, and_63]
  omega

theorem tail0_eq (a : Nat) (ha : a < 256) : ((a <<< 16) >>> 18) &&& 0x3F = a / 4 := by
  rw [and_63, Nat.shiftRight_eq_div_pow, Nat.shiftLeft_eq]
  norm_num
  omega

theorem tail1_eq (a : Nat) : ((a <<< 16) >>> 12) &&& 0x3F = a % 4 * 16 := by
  rw [and_63, Nat.shiftRight_eq_div_pow, Nat.shiftLeft_eq]
  norm_num
  omega

/-- Four characters of a full group determine its three bytes. -/
theorem group_inj (a b c x y z : Nat) (ha : a < 256) (hb : b < 256) (hc : c < 256)
    (hx : x < 256) (hy : y < 256) (hz : z < 256)
    (h0 : encChar (((((a <<< 16) ||| (b <<< 8)) ||| c) >>> 18) &&& 0x3F)
        = encChar (((((x <<< 16) ||| (y <<< 8)) ||| z) >>> 18) &&& 0x3F))
    (h1 : encChar (((((a <<< 16) ||| (b <<< 8)) ||| c) >>> 12) &&& 0x3F)
        = encChar (((((x <<< 16) ||| (y <<< 8)) ||| z) >>> 12) &&& 0x3F))
    (h2 : encChar (((((a <<< 16) ||| (b <<< 8)) ||| c) >>> 6) &&& 0x3F)
        = encChar (((((x <<< 16) ||| (y <<< 8)) ||| z) >>> 6) &&& 0x3F))
    (h3 : encChar ((((a <<< 16) ||| (b <<< 8)) ||| c) &&& 0x3F)
        = encChar ((((x <<< 16) ||| (y <<< 8)) ||| z) &&& 0x3F)) :
    a = x ∧ b = y ∧ c = z := by
  rw [idx0_eq a b c ha hb hc, idx0_eq x y z hx hy hz] at h0
  rw [idx1_eq a b c hb hc, idx1_eq x y z hy hz] at h1
  rw [idx2_eq a b c hb hc, idx2_eq x y z hy hz] at h2
  rw [idx3_eq a b c hb hc, idx3_eq x y z hy hz] at h3
  have e0 := encChar_inj _ _ (by omega) (by omega) h0
  have e1 := encChar_inj _ _ (by omega) (by omega) h1
  have e2 := encChar_inj _ _ (by omega) (by omega) h2
  have e3 := encChar_inj _ _ (by omega) (by omega) h3
  omega

/-- Two characters of a final group of one byte determine the byte. -/
theorem tail_inj (a x : Nat) (ha : a < 256) (hx : x < 256)
    (h0 : encChar (((a <<< 16) >>> 18) &&& 0x3F) = encChar (((x <<< 16) >>> 18) &&& 0x3F))
    (h1 : encChar (((a <<< 16) >>> 12) &&& 0x3F) = encChar (((x <<< 16) >>> 12) &&& 0x3F)) :
    a = x := by
  rw [tail0_eq a ha, tail0_eq x hx] at h0
  rw [tail1_eq a, tail1_eq x] at h1
  have e0 := encChar_inj _ _ (by omega) (by omega) h0
  have e1 := encChar_inj _ _ (by omega) (by omega) h1
  omega

/-- The last character of a final group of one byte is never trimmed. -/
theorem tail_not_trimmed (a : Nat) :
    encChar (((a <<< 16) >>> 12) &&& 0x3F) ≠ '-' ∧ encChar (((a <<< 16) >>> 12) &&& 0x3F) ≠ '_' := by
  rw [tail1_eq a]
  exact encChar_not_trimmed _ (by omega)

theorem cons_of_length {α : Type} (l : List α) (n : Nat) (h : l.length = n + 1) :
    ∃ a t, l = a :: t ∧ t.length = n := by
  cases l with
  | nil => simp at h
  | cons a t => exact ⟨a, t, rfl, by simpa using h⟩

/-- A list of length sixteen, element by element. -/
theorem exists_of_length_16 {α : Type} (l : List α) (h : l.length = 16) :
    ∃ b0 b1 b2 b3 b4 b5 b6 b7 b8 b9 b10 b11 b12 b13 b14 b15,
      l = [b0, b1, b2, b3, b4, b5, b6, b7, b8, b9, b10, b11, b12, b13, b14, b15] := by
  obtain ⟨b0, t0, e0, h0⟩ := cons_of_length l 15 h
  obtain ⟨b1, t1, e1, h1⟩ := cons_of_length t0 14 h0
  obtain ⟨b2, t2, e2, h2⟩ := cons_of_length t1 13 h1
  obtain ⟨b3, t3, e3, h3⟩ := cons_of_length t2 12 h2
  obtain ⟨b4, t4, e4, h4⟩ := cons_of_length t3 11 h3
  obtain ⟨b5, t5, e5, h5⟩ := cons_of_length t4 10 h4
  obtain ⟨b6, t6, e6, h6⟩ := cons_of_length t5 9 h5
  obtain ⟨b7, t7, e7, h7⟩ := cons_of_length t6 8 h6
  obtain ⟨b8, t8, e8, h8⟩ := cons_of_length t7 7 h7
  obtain ⟨b9, t9, e9, h9⟩ := cons_of_length t8 6 h8
  obtain ⟨b10, t10, e10, h10⟩ := cons_of_length t9 5 h9
  obtain ⟨b11, t11, e11, h11⟩ := cons_of_length t10 4 h10
  obtain ⟨b12, t12, e12, h12⟩ := cons_of_length t11 3 h11
  obtain ⟨b13, t13, e13, h13⟩ := cons_of_length t12 2 h12
  obtain ⟨b14, t14, e14, h14⟩ := cons_of_length t13 1 h13
  obtain ⟨b15, t15, e15, h15⟩ := cons_of_length t14 0 h14
  have e16 : t15 = [] := List.length_eq_zero.mp h15
  refine ⟨b0, b1, b2, b3, b4, b5, b6, b7, b8, b9, b10, b11, b12, b13, b14, b15, ?_⟩
  rw [e0, e1, e2, e3, e4, e5, e6, e7, e8, e9, e10, e11, e12, e13, e14, e15, e16]

/-- The encoding of sixteen bytes: twenty-one characters and the second
character of the final group. -/
theorem rawURLEncode_16 (bytes : List Nat) (h : bytes.length = 16) :
    ∃ front b15, front.length = 21 ∧ bytes.getLast? = some b15 ∧
      rawURLEncode bytes = front ++ [encChar (((b15 <<< 16) >>> 12) &&& 0x3F)] := by
  obtain ⟨b0, b1, b2, b3, b4, b5, b6, b7, b8, b9, b10, b11, b12, b13, b14, b15, rfl⟩ :=
    exists_of_length_16 bytes h
  exact ⟨_, b15, by simp only [List.length_cons, List.length_nil], rfl,
    show _ = [_, _, _, _, _, _, _, _, _, _, _, _, _, _, _, _, _, _, _, _, _] ++ [_] from rfl⟩

theorem rawURLEncode_length_16 (bytes : List Nat) (h : bytes.length = 16) :
    (rawURLEncode bytes).length = 22 := by
  obtain ⟨front, b15, hf, _, he⟩ := rawURLEncode_16 bytes h
  rw [he, List.length_append, hf]
  rfl

theorem rawURLEncode_mem (bytes : List Nat) : ∀ c ∈ rawURLEncode bytes, c ∈ encodeURL := by
  induction bytes using rawURLEncode.induct with
  | case1 b0 b1 b2 rest ih =>
    intro c hc
    simp only [rawURLEncode, List.mem_cons] at hc
    rcases hc with h | h | h | h | h
    · rw [h]; exact encChar_mem _
    · rw [h]; exact encChar_mem _
    · rw [h]; exact encChar_mem _
    · rw [h]; exact encChar_mem _
    · exact ih c h
  | case2 b0 b1 =>
    intro c hc
    simp only [rawURLEncode, List.mem_cons, List.mem_singleton, List.not_mem_nil, or_false] at hc
    rcases hc with h | h | h <;> rw [h] <;> exact encChar_mem _
  | case3 b0 =>
    intro c hc
    simp only [rawURLEncode, List.mem_cons, List.mem_singleton, List.not_mem_nil, or_false] at hc
    rcases hc with h | h <;> rw [h] <;> exact encChar_mem _
  | case4 =>
    intro c hc
    simp [rawURLEncode] at hc

/-- Nothing is trimmed on the right of a string whose last character is not in
the cutset. -/
theorem trimRight_append_singleton (cutset front : List Char) (x : Char) (hx : x ∉ cutset) :
    trimRight cutset (front ++ [x]) = front ++ [x] := by
  unfold trimRight
  rw [List.reverse_append, List.reverse_singleton, List.singleton_append,
    List.dropWhile_cons_of_neg (by simpa using hx)]
  simp

/-- Nothing is trimmed on the left of a string whose first character is not in
the cutset. -/
theorem trimLeft_cons (cutset rest : List Char) (x : Char) (hx : x ∉ cutset) :
    trimLeft cutset (x :: rest) = x :: rest := by
  unfold trimLeft
  rw [List.dropWhile_cons_of_neg (by simpa using hx)]

theorem trimLeft_suffix (cutset s : List Char) : trimLeft cutset s <:+ s :=
  List.dropWhile_suffix _

theorem trimLeft_append_singleton_ne_nil (cutset front : List Char) (x : Char)
    (hx : x ∉ cutset) : trimLeft cutset (front ++ [x]) ≠ [] := by
  unfold trimLeft
  intro h
  rw [List.dropWhile_eq_nil_iff] at h
  have := h x (by simp)
  simp only [decide_eq_true_eq] at this
  exact hx this

theorem trimLeft_head (cutset s : List Char) (c : Char)
    (h : (trimLeft cutset s).head? = some c) : c ∉ cutset := by
  have := List.head?_dropWhile_not (fun c => decide (c ∈ cutset)) s
  unfold trimLeft at h
  rw [h] at this
  simpa using this

theorem getLast?_of_suffix {α : Type} (l1 l2 : List α) (h : l1 <:+ l2) (hne : l1 ≠ []) :
    l1.getLast? = l2.getLast? := by
  obtain ⟨t, rfl⟩ := h
  rw [List.getLast?_append]
  cases hl : l1.getLast? with
  | none => exact absurd (List.getLast?_eq_none_iff.mp hl) hne
  | some a => rfl

theorem mem_cutset (c : Char) : c ∈ "-_".data ↔ c = '-' ∨ c = '_' := by
  show c ∈ ['-', '_'] ↔ _
  simp

/-- The secret built from sixteen bytes is the encoding with its leading `-`
and `_` dropped. -/
theorem passwordFromBytes_data (bytes : List Nat) (h : bytes.length = 16) :
    (passwordFromBytes bytes).data = trimLeft "-_".data (rawURLEncode bytes) := by
  obtain ⟨front, b15, _, _, he⟩ := rawURLEncode_16 bytes h
  show trimLeft "-_".data (trimRight "-_".data (rawURLEncode bytes)) = _
  rw [he, trimRight_append_singleton]
  rw [mem_cutset]
  have := tail_not_trimmed b15
  tauto

/-- The shape of the secret built from sixteen bytes. -/
theorem passwordFromBytes_shape (bytes : List Nat) (hlen : bytes.length = 16) :
    (passwordFromBytes bytes).data ≠ []
    ∧ (∀ c ∈ (passwordFromBytes bytes).data, c ∈ encodeURL)
    ∧ '=' ∉ (passwordFromBytes bytes).data
    ∧ (∀ c, (passwordFromBytes bytes).data.head? = some c → c ≠ '-' ∧ c ≠ '_')
    ∧ (∀ c, (passwordFromBytes bytes).data.getLast? = some c → c ≠ '-' ∧ c ≠ '_') := by
  obtain ⟨front, b15, _, _, he⟩ := rawURLEncode_16 bytes hlen
  have hlast : encChar (((b15 <<< 16) >>> 12) &&& 0x3F) ∉ "-_".data := by
    rw [mem_cutset]
    have := tail_not_trimmed b15
    tauto
  have hdata := passwordFromBytes_data bytes hlen
  have hne : (passwordFromBytes bytes).data ≠ [] := by
    rw [hdata, he]
    exact trimLeft_append_singleton_ne_nil _ _ _ hlast
  have hmem : ∀ c ∈ (passwordFromBytes bytes).data, c ∈ encodeURL := by
    intro c hc
    rw [hdata] at hc
    exact rawURLEncode_mem bytes c ((trimLeft_suffix _ _).subset hc)
  refine ⟨hne, hmem, ?_, ?_, ?_⟩
  · intro h
    exact absurd (hmem _ h) (by decide)
  · intro c hc
    rw [hdata] at hc
    have := trimLeft_head _ _ _ hc
    rw [mem_cutset] at this
    tauto
  · intro c hc
    rw [getLast?_of_suffix _ (rawURLEncode bytes) (hdata ▸ trimLeft_suffix _ _) hne, he] at hc
    simp only [List.getLast?_append, List.getLast?_singleton, Option.or_some,
      Option.some.injEq] at hc
    rw [← hc]
    exact tail_not_trimmed b15

/-- C3: the secret `generatePassword` builds from any sixteen bytes is not
empty, consists of characters of the URL-safe alphabet only, holds no `=`, and
neither begins nor ends with `-` or `_`. -/
theorem passwordFromBytes_wellformed (bytes : List Nat) (hlen : bytes.length = 16) :
    (passwordFromBytes bytes).data ≠ []
    ∧ (∀ c ∈ (passwordFromBytes bytes).data, c ∈ encodeURL)
    ∧ '=' ∉ (passwordFromBytes bytes).data
    ∧ (∀ c, (passwordFromBytes bytes).data.head? = some c → c ≠ '-' ∧ c ≠ '_')
    ∧ (∀ c, (passwordFromBytes bytes).data.getLast? = some c → c ≠ '-' ∧ c ≠ '_') :=
  passwordFromBytes_shape bytes hlen

/-- C3 at a concrete input: sixteen bytes `0xFF`, whose encoding is twenty-one
`_` and a `w`. -/
theorem passwordFromBytes_wellformed_witness :
    (List.replicate 16 255).length = 16
    ∧ passwordFromBytes (List.replicate 16 255) = "w"
    ∧ (passwordFromBytes (List.replicate 16 255)).data ≠ [] :=
  ⟨by decide, by decide, (passwordFromBytes_wellformed (List.replicate 16 255) (by decide)).1⟩

/-- What `generatePassword` returns is built from a buffer of sixteen bytes. -/
theorem readInto_length (data : List Nat) :
    (readInto (List.replicate 16 0) data).length = 16 := by
  unfold readInto
  simp only [List.length_append, List.length_map, List.length_take, List.length_drop,
    List.length_replicate]
  omega

theorem readInto_lt (data : List Nat) : ∀ b ∈ readInto (List.replicate 16 0) data, b < 256 := by
  intro b hb
  unfold readInto at hb
  rw [List.mem_append] at hb
  rcases hb with h | h
  · obtain ⟨x, _, rfl⟩ := List.mem_map.mp h
    omega
  · have := List.eq_of_mem_replicate (List.mem_of_mem_drop h)
    omega


/-- Every secret `generatePassword` returns has the shape of C3, whatever the
random source delivers. -/
theorem generatePassword_shape {σ Key Cert CSR : Type} (L : Lib σ Key Cert CSR) (s s1 : σ)
    (pw : String) (h : generatePassword L s = (.ok pw, s1)) :
    pw.data ≠ [] ∧ (∀ c ∈ pw.data, c ∈ encodeURL) ∧ '=' ∉ pw.data
    ∧ (∀ c, pw.data.head? = some c → c ≠ '-' ∧ c ≠ '_')
    ∧ (∀ c, pw.data.getLast? = some c → c ≠ '-' ∧ c ≠ '_') := by
  unfold generatePassword at h
  rcases hr : L.randRead 16 s with ⟨r, t⟩
  rw [hr] at h
  cases r with
  | error err => simp at h
  | ok data =>
    simp only [Prod.mk.injEq, Outcome.ok.injEq] at h
    rw [← h.1]
    exact passwordFromBytes_shape _ (readInto_length data)

/-- The encoding is injective on sequences of sixteen bytes. -/
theorem rawURLEncode_inj_16 (b1 b2 : List Nat) (h1 : b1.length = 16) (h2 : b2.length = 16)
    (hb1 : ∀ x ∈ b1, x < 256) (hb2 : ∀ x ∈ b2, x < 256)
    (h : rawURLEncode b1 = rawURLEncode b2) : b1 = b2 := by
  obtain ⟨a0, a1, a2, a3, a4, a5, a6, a7, a8, a9, a10, a11, a12, a13, a14, a15, rfl⟩ :=
    exists_of_length_16 b1 h1
  obtain ⟨x0, x1, x2, x3, x4, x5, x6, x7, x8, x9, x10, x11, x12, x13, x14, x15, rfl⟩ :=
    exists_of_length_16 b2 h2
  simp only [rawURLEncode, List.cons.injEq, and_true] at h
  obtain ⟨c0, c1, c2, c3, c4, c5, c6, c7, c8, c9, c10, c11, c12, c13, c14, c15, c16, c17,
    c18, c19, c20, c21⟩ := h
  simp only [List.mem_cons, List.mem_singleton, List.not_mem_nil, or_false, forall_eq_or_imp,
    forall_eq] at hb1 hb2
  obtain ⟨p0, p1, p2, p3, p4, p5, p6, p7, p8, p9, p10, p11, p12, p13, p14, p15⟩ := hb1
  obtain ⟨q0, q1, q2, q3, q4, q5, q6, q7, q8, q9, q10, q11, q12, q13, q14, q15⟩ := hb2
  obtain ⟨e0, e1, e2⟩ := group_inj a0 a1 a2 x0 x1 x2 p0 p1 p2 q0 q1 q2 c0 c1 c2 c3
  obtain ⟨e3, e4, e5⟩ := group_inj a3 a4 a5 x3 x4 x5 p3 p4 p5 q3 q4 q5 c4 c5 c6 c7
  obtain ⟨e6, e7, e8⟩ := group_inj a6 a7 a8 x6 x7 x8 p6 p7 p8 q6 q7 q8 c8 c9 c10 c11
  obtain ⟨e9, e10, e11⟩ :=
    group_inj a9 a10 a11 x9 x10 x11 p9 p10 p11 q9 q10 q11 c12 c13 c14 c15
  obtain ⟨e12, e13, e14⟩ :=
    group_inj a12 a13 a14 x12 x13 x14 p12 p13 p14 q12 q13 q14 c16 c17 c18 c19
  have e15 := tail_inj a15 x15 p15 q15 c20 c21
  rw [e0, e1, e2, e3, e4, e5, e6, e7, e8, e9, e10, e11, e12, e13, e14, e15]

/-- Nothing is trimmed from the encoding of sixteen bytes whose first byte is
below `0xF8`. -/
theorem passwordFromBytes_untrimmed (bytes : List Nat) (h : bytes.length = 16)
    (hb : ∀ x ∈ bytes, x < 256) (hfirst : bytes.headD 0 < 0xF8) :
    (passwordFromBytes bytes).data = rawURLEncode bytes := by
  rw [passwordFromBytes_data bytes h]
  obtain ⟨a0, a1, a2, a3, a4, a5, a6, a7, a8, a9, a10, a11, a12, a13, a14, a15, rfl⟩ :=
    exists_of_length_16 bytes h
  have p0 : a0 < 256 := hb a0 (by simp)
  have p1 : a1 < 256 := hb a1 (by simp)
  have p2 : a2 < 256 := hb a2 (by simp)
  have hfirst2 : a0 < 248 := hfirst
  simp only [rawURLEncode]
  apply trimLeft_cons
  rw [mem_cutset, idx0_eq a0 a1 a2 p0 p1 p2]
  have := encChar_not_trimmed (a0 / 4) (by omega)
  tauto

/-- C8 as stated fails: the sixteen-byte sequences `F8 00 ... 00` and
`FC 00 ... 00` are distinct and give the same secret, twenty-one `A`. -/
theorem passwordFromBytes_collision :
    (0xF8 :: List.replicate 15 0).length = 16
    ∧ (0xFC :: List.replicate 15 0).length = 16
    ∧ (0xF8 :: List.replicate 15 0) ≠ (0xFC :: List.replicate 15 0)
    ∧ passwordFromBytes (0xF8 :: List.replicate 15 0) = "AAAAAAAAAAAAAAAAAAAAA"
    ∧ passwordFromBytes (0xFC :: List.replicate 15 0) = "AAAAAAAAAAAAAAAAAAAAA" := by
  decide

/-- C8, amended: for two distinct sequences of sixteen bytes the untrimmed
encodings are distinct, and the secrets built from them are distinct whenever
the first byte of at least one of them is below `0xF8`, that is, unless both
encodings begin with `-` or `_`. -/
theorem passwordFromBytes_injective (b1 b2 : List Nat) (h1 : b1.length = 16)
    (h2 : b2.length = 16) (hb1 : ∀ x ∈ b1, x < 256) (hb2 : ∀ x ∈ b2, x < 256)
    (hne : b1 ≠ b2) :
    EncodeToString b1 ≠ EncodeToString b2
    ∧ (b1.headD 0 < 0xF8 ∨ b2.headD 0 < 0xF8 → passwordFromBytes b1 ≠ passwordFromBytes b2) := by
  have key : ∀ c d : List Nat, c.length = 16 → d.length = 16 → (∀ x ∈ c, x < 256) →
      (∀ x ∈ d, x < 256) → c.headD 0 < 0xF8 → passwordFromBytes c = passwordFromBytes d →
      c = d := by
    intro c d hc hd hbc hbd hfirst heq
    have hdata := congrArg String.data heq
    rw [passwordFromBytes_untrimmed c hc hbc hfirst, passwordFromBytes_data d hd] at hdata
    have hsuf : trimLeft "-_".data (rawURLEncode d) <:+ rawURLEncode d := trimLeft_suffix _ _
    have hlen : (trimLeft "-_".data (rawURLEncode d)).length = (rawURLEncode d).length := by
      rw [← hdata, rawURLEncode_length_16 c hc, rawURLEncode_length_16 d hd]
    rw [hsuf.eq_of_length hlen] at hdata
    exact rawURLEncode_inj_16 c d hc hd hbc hbd hdata
  constructor
  · intro h
    apply hne
    apply rawURLEncode_inj_16 b1 b2 h1 h2 hb1 hb2
    exact congrArg String.data h
  · intro hfirst heq
    rcases hfirst with hf | hf
    · exact hne (key b1 b2 h1 h2 hb1 hb2 hf heq)
    · exact hne (key b2 b1 h2 h1 hb2 hb1 hf heq.symm).symm

/-- C8, amended, at a concrete input: sixteen bytes `0x00` and sixteen bytes
`0x01`. -/
theorem passwordFromBytes_injective_witness :
    passwordFromBytes (List.replicate 16 0) ≠ passwordFromBytes (List.replicate 16 1) :=
  (passwordFromBytes_injective (List.replicate 16 0) (List.replicate 16 1) (by decide)
    (by decide) (by decide) (by decide) (by decide)).2 (Or.inl (by decide))


/-! ## C7 and C9: `InitCertKeyPair` -/

/-- Two messages whose prefixes differ at a position inside both prefixes differ. -/
theorem prefixed_ne (p q e1 e2 : String) (n : Nat) (hp : n < p.data.length)
    (hq : n < q.data.length) (h : p.data[n]? ≠ q.data[n]?) : p ++ e1 ≠ q ++ e2 := by
  intro heq
  apply h
  have h1 := congrArg (fun t : String => t.data[n]?) heq
  simp only [String.data_append] at h1
  rw [List.getElem?_append_left hp, List.getElem?_append_left hq] at h1
  exact h1

/-- The four ways `InitCertKeyPair` ends. -/
theorem InitCertKeyPair_cases {σ Key Cert CSR : Type} (L : Lib σ Key Cert CSR)
    (ca : CA Key Cert) (kp : CertKeyPair Key Cert) (s : σ) :
    (∃ err s1, L.CreateRSAKey KeyBits s = (.error err, s1)
        ∧ ca.InitCertKeyPair L kp s
          = (some ("create host key: " ++ err), { kp with key := none }, s1))
    ∨ (∃ k s1 err s2, L.CreateRSAKey KeyBits s = (.ok k, s1)
        ∧ L.CreateCertificateSigningRequest (some k) "" [] kp.Domains "" "" "" ""
            kp.CommonName s1 = (.error err, s2)
        ∧ ca.InitCertKeyPair L kp s
          = (some ("create host csr: " ++ err), { kp with key := some k }, s2))
    ∨ (∃ k s1 csr s2 err s3, L.CreateRSAKey KeyBits s = (.ok k, s1)
        ∧ L.CreateCertificateSigningRequest (some k) "" [] kp.Domains "" "" "" ""
            kp.CommonName s1 = (.ok csr, s2)
        ∧ L.CreateCertificateHost ca.cert ca.key csr HostCertExpiryYears s2 = (.error err, s3)
        ∧ ca.InitCertKeyPair L kp s
          = (some ("sign host csr: " ++ err), { kp with key := some k, cert := none }, s3))
    ∨ (∃ k s1 csr s2 c s3, L.CreateRSAKey KeyBits s = (.ok k, s1)
        ∧ L.CreateCertificateSigningRequest (some k) "" [] kp.Domains "" "" "" ""
            kp.CommonName s1 = (.ok csr, s2)
        ∧ L.CreateCertificateHost ca.cert ca.key csr HostCertExpiryYears s2 = (.ok c, s3)
        ∧ ca.InitCertKeyPair L kp s
          = (none, { kp with key := some k, cert := some c }, s3)) := by
  rcases h1 : L.CreateRSAKey KeyBits s with ⟨r1, s1⟩
  cases r1 with
  | error err =>
    left
    exact ⟨err, s1, rfl, by simp only [CA.InitCertKeyPair, h1]⟩
  | ok k =>
    right
    rcases h2 : L.CreateCertificateSigningRequest (some k) "" [] kp.Domains "" "" "" ""
      kp.CommonName s1 with ⟨r2, s2⟩
    cases r2 with
    | error err =>
      left
      exact ⟨k, s1, err, s2, rfl, h2, by simp only [CA.InitCertKeyPair, h1, h2]⟩
    | ok csr =>
      right
      rcases h3 : L.CreateCertificateHost ca.cert ca.key csr HostCertExpiryYears s2
        with ⟨r3, s3⟩
      cases r3 with
      | error err =>
        left
        exact ⟨k, s1, csr, s2, err, s3, rfl, h2, h3,
          by simp only [CA.InitCertKeyPair, h1, h2, h3]⟩
      | ok c =>
        right
        exact ⟨k, s1, csr, s2, c, s3, rfl, h2, h3,
          by simp only [CA.InitCertKeyPair, h1, h2, h3]⟩

/-- C7 as stated fails: with an initialized CA and a library whose key
generation fails, the error returned for the server leaf and the error returned
for the client leaf are the same string, which names the step and no leaf. -/
theorem InitCertKeyPair_error_names_no_leaf :
    testCA.key = some 0
    ∧ testCA.cert.isSome = true
    ∧ (etcdServer : CertKeyPair Nat TestCert).CommonName
        ≠ (etcdClient : CertKeyPair Nat TestCert).CommonName
    ∧ (etcdServer : CertKeyPair Nat TestCert).VarName_Cert
        ≠ (etcdClient : CertKeyPair Nat TestCert).VarName_Cert
    ∧ (testCA.InitCertKeyPair (testLib 1 true) etcdServer 2).1
        = some "create host key: no entropy"
    ∧ (testCA.InitCertKeyPair (testLib 1 true) etcdClient 2).1
        = some "create host key: no entropy" := by
  decide

/-- C7, amended: for every initialized CA and every leaf request,
`InitCertKeyPair` returns an error exactly when leaf key generation, CSR
construction or signing fails; the state it leaves is the state the failed step
left (no later step has run); the error is the prefix `create host key: `,
`create host csr: ` or `sign host csr: ` followed by the library's message, so
the messages of the three steps are pairwise distinct and mark the certificate
as a host certificate; no leaf is named in it. -/
theorem InitCertKeyPair_errors {σ Key Cert CSR : Type} (L : Lib σ Key Cert CSR)
    (ca : CA Key Cert) (caKey : Key) (caCert : Cert)
    (hkey : ca.key = some caKey) (hcert : ca.cert = some caCert)
    (kp : CertKeyPair Key Cert) (s : σ) :
    ((∃ err s1, L.CreateRSAKey KeyBits s = (.error err, s1)
        ∧ ca.InitCertKeyPair L kp s
          = (some ("create host key: " ++ err), { kp with key := none }, s1))
    ∨ (∃ k s1 err s2, L.CreateRSAKey KeyBits s = (.ok k, s1)
        ∧ L.CreateCertificateSigningRequest (some k) "" [] kp.Domains "" "" "" ""
            kp.CommonName s1 = (.error err, s2)
        ∧ ca.InitCertKeyPair L kp s
          = (some ("create host csr: " ++ err), { kp with key := some k }, s2))
    ∨ (∃ k s1 csr s2 err s3, L.CreateRSAKey KeyBits s = (.ok k, s1)
        ∧ L.CreateCertificateSigningRequest (some k) "" [] kp.Domains "" "" "" ""
            kp.CommonName s1 = (.ok csr, s2)
        ∧ L.CreateCertificateHost (some caCert) (some caKey) csr HostCertExpiryYears s2
            = (.error err, s3)
        ∧ ca.InitCertKeyPair L kp s
          = (some ("sign host csr: " ++ err), { kp with key := some k, cert := none }, s3))
    ∨ (∃ k s1 csr s2 c s3, L.CreateRSAKey KeyBits s = (.ok k, s1)
        ∧ L.CreateCertificateSigningRequest (some k) "" [] kp.Domains "" "" "" ""
            kp.CommonName s1 = (.ok csr, s2)
        ∧ L.CreateCertificateHost (some caCert) (some caKey) csr HostCertExpiryYears s2
            = (.ok c, s3)
        ∧ ca.InitCertKeyPair L kp s
          = (none, { kp with key := some k, cert := some c }, s3)))
    ∧ (∀ e1 e2 e3 : String,
        "create host key: " ++ e1 ≠ "create host csr: " ++ e2
        ∧ "create host key: " ++ e1 ≠ "sign host csr: " ++ e3
        ∧ "create host csr: " ++ e2 ≠ "sign host csr: " ++ e3) := by
  refine ⟨?_, ?_⟩
  · have h := InitCertKeyPair_cases L ca kp s
    rw [hkey, hcert] at h
    exact h
  · intro e1 e2 e3
    exact ⟨prefixed_ne _ _ _ _ 12 (by decide) (by decide) (by decide),
      prefixed_ne _ _ _ _ 0 (by decide) (by decide) (by decide),
      prefixed_ne _ _ _ _ 0 (by decide) (by decide) (by decide)⟩

/-- C7, amended, at a concrete input: the test CA, initialized, issuing the
server leaf over a library whose key generation fails. -/
theorem InitCertKeyPair_errors_witness :
    testCA.key = some 0
    ∧ testCA.cert = some
        { subject := "etcdCA", issuer := "etcdCA", signer := some 0, dnsNames := [],
          isCA := true, years := 10 }
    ∧ ∃ err, (testCA.InitCertKeyPair (testLib 1 true) etcdServer 2).1
        = some ("create host key: " ++ err) := by
  refine ⟨rfl, rfl, ?_⟩
  rcases (InitCertKeyPair_errors (testLib 1 true) testCA 0
      { subject := "etcdCA", issuer := "etcdCA", signer := some 0, dnsNames := [],
        isCA := true, years := 10 } rfl rfl etcdServer 2).1 with
    ⟨err, s1, _, h⟩ | ⟨k, s1, err, s2, h1, _⟩ | ⟨k, s1, csr, s2, err, s3, h1, _⟩
      | ⟨k, s1, csr, s2, c, s3, h1, _⟩
  · exact ⟨err, by rw [h]⟩
  · simp [testLib] at h1
  · simp [testLib] at h1
  · simp [testLib] at h1

/-- C9: for a CA that holds a key and a certificate, over any library whose
signing request records the domain list and common name it is given and whose
host certificate copies them and records the issuer's subject and the signing
key, the certificate `InitCertKeyPair` issues is signed with that CA's key and
certificate and carries the requested domain list, verbatim and in order, and
the requested common name; for an empty domain list it carries no DNS name. -/
theorem InitCertKeyPair_certificate {σ Key Cert CSR : Type} (L : Lib σ Key Cert CSR)
    (subject issuer : Cert → String) (signingKey : Cert → Option Key)
    (dnsNames : Cert → List String) (csrNames : CSR → List String) (csrSubject : CSR → String)
    (hcsr : ∀ key ou ips doms org country prov loc cn s csr s1,
      L.CreateCertificateSigningRequest key ou ips doms org country prov loc cn s
        = (.ok csr, s1) → csrNames csr = doms ∧ csrSubject csr = cn)
    (hhost : ∀ crtAuth keyAuth csr years s c s1,
      L.CreateCertificateHost (some crtAuth) keyAuth csr years s = (.ok c, s1) →
        issuer c = subject crtAuth ∧ signingKey c = keyAuth
          ∧ dnsNames c = csrNames csr ∧ subject c = csrSubject csr)
    (ca : CA Key Cert) (caKey : Key) (caCert : Cert)
    (hkey : ca.key = some caKey) (hcert : ca.cert = some caCert)
    (kp kp1 : CertKeyPair Key Cert) (s s1 : σ)
    (hrun : ca.InitCertKeyPair L kp s = (none, kp1, s1)) :
    ∃ c, kp1.cert = some c ∧ issuer c = subject caCert ∧ signingKey c = some caKey
      ∧ dnsNames c = kp.Domains ∧ subject c = kp.CommonName
      ∧ (kp.Domains = [] → dnsNames c = []) := by
  rcases InitCertKeyPair_cases L ca kp s with
    ⟨err, t1, _, h⟩ | ⟨k, t1, err, t2, _, _, h⟩ | ⟨k, t1, csr, t2, err, t3, _, _, _, h⟩
      | ⟨k, t1, csr, t2, c, t3, _, h2, h3, h⟩
  · rw [h] at hrun; simp at hrun
  · rw [h] at hrun; simp at hrun
  · rw [h] at hrun; simp at hrun
  · rw [h] at hrun
    simp only [Prod.mk.injEq, true_and] at hrun
    obtain ⟨hkp, _⟩ := hrun
    rw [hcert, hkey] at h3
    obtain ⟨i1, i2, i3, i4⟩ := hhost caCert (some caKey) csr _ t2 c t3 h3
    obtain ⟨j1, j2⟩ := hcsr _ _ _ _ _ _ _ _ _ _ _ _ h2
    refine ⟨c, by rw [← hkp], i1, i2, i3.trans j1, i4.trans j2, ?_⟩
    intro hnil
    rw [i3, j1, hnil]

/-- C9 at a concrete input: the server leaf of `mainWithError`, with its
wildcard entry, issued by the initialized test CA. -/
theorem InitCertKeyPair_certificate_witness :
    ∃ c : TestCert, (testCA.InitCertKeyPair (testLib 1000 true) etcdServer 2).2.1.cert = some c
      ∧ c.issuer = "etcdCA" ∧ c.signer = some 0
      ∧ c.dnsNames = ["*.etcd.service.cf.internal", "etcd.service.cf.internal"]
      ∧ c.subject = "etcd.service.cf.internal"
      ∧ ((etcdServer : CertKeyPair Nat TestCert).Domains = [] → c.dnsNames = []) :=
  InitCertKeyPair_certificate (testLib 1000 true) TestCert.subject TestCert.issuer
    TestCert.signer TestCert.dnsNames TestCSR.dnsNames TestCSR.commonName
    (by
      intro key ou ips doms org country prov loc cn s csr s1 h
      simp only [testLib, Prod.mk.injEq, Except.ok.injEq] at h
      rw [← h.1]
      exact ⟨rfl, rfl⟩)
    (by
      intro crtAuth keyAuth csr years s c s1 h
      simp only [testLib, Prod.mk.injEq, Except.ok.injEq] at h
      rw [← h.1]
      exact ⟨rfl, rfl, rfl, rfl⟩)
    testCA 0 { subject := "etcdCA", issuer := "etcdCA", signer := some 0, dnsNames := [],
               isCA := true, years := 10 }
    rfl rfl etcdServer _ 2 5 rfl


/-! ## C4 and C5: how a run ends and what it has written -/

/-- The three ways `mainWithError` ends. -/
theorem mainWithError_cases {σ Key Cert CSR : Type} (L : Lib σ Key Cert CSR)
    (envName dnsBaseName : String) (w : World σ) :
    (∃ o s out, assemble L envName dnsBaseName w.lib = (.ok o, s) ∧ L.Marshal o = .ok out
        ∧ mainWithError L envName dnsBaseName w
          = (.ok none, { lib := s, stdout := w.stdout ++ [out], stderr := w.stderr }))
    ∨ (∃ o s err, assemble L envName dnsBaseName w.lib = (.ok o, s) ∧ L.Marshal o = .error err
        ∧ mainWithError L envName dnsBaseName w
          = (.ok (some ("marshaling output as yaml: " ++ err)),
              { lib := s, stdout := w.stdout, stderr := w.stderr }))
    ∨ (∃ v s, assemble L envName dnsBaseName w.lib = (.panic v, s)
        ∧ mainWithError L envName dnsBaseName w
          = (.panic v, { lib := s, stdout := w.stdout, stderr := w.stderr })) := by
  rcases h1 : assemble L envName dnsBaseName w.lib with ⟨r, s⟩
  cases r with
  | panic v =>
    right; right
    exact ⟨v, s, rfl, by simp only [mainWithError, h1]⟩
  | ok o =>
    cases h2 : L.Marshal o with
    | error err =>
      right; left
      exact ⟨o, s, err, rfl, h2, by simp only [mainWithError, h1, h2]⟩
    | ok out =>
      left
      exact ⟨o, s, out, rfl, h2, by simp only [mainWithError, h1, h2]⟩

/-- C5: a run of `mainWithError` that does not return `nil` (it panics at a
generation step or returns the marshalling error) leaves standard output as it
was; a run that returns `nil` has made one write to standard output, of the
marshalled manifest, after `assemble` and `Marshal` have both succeeded. -/
theorem mainWithError_stdout {σ Key Cert CSR : Type} (L : Lib σ Key Cert CSR)
    (envName dnsBaseName : String) (w w1 : World σ) (r : Outcome GoError)
    (hrun : mainWithError L envName dnsBaseName w = (r, w1)) :
    (r ≠ .ok none → w1.stdout = w.stdout)
    ∧ (r = .ok none → ∃ o s out, assemble L envName dnsBaseName w.lib = (.ok o, s)
        ∧ L.Marshal o = .ok out ∧ w1.stdout = w.stdout ++ [out]) := by
  rcases mainWithError_cases L envName dnsBaseName w with
    ⟨o, s, out, h1, h2, h⟩ | ⟨o, s, err, h1, h2, h⟩ | ⟨v, s, h1, h⟩
  · rw [h] at hrun
    simp only [Prod.mk.injEq] at hrun
    obtain ⟨hr, hw⟩ := hrun
    subst hr hw
    exact ⟨fun hne => absurd rfl hne, fun _ => ⟨o, s, out, h1, h2, rfl⟩⟩
  · rw [h] at hrun
    simp only [Prod.mk.injEq] at hrun
    obtain ⟨hr, hw⟩ := hrun
    subst hr hw
    exact ⟨fun _ => rfl, fun hr => by simp at hr⟩
  · rw [h] at hrun
    simp only [Prod.mk.injEq] at hrun
    obtain ⟨hr, hw⟩ := hrun
    subst hr hw
    exact ⟨fun _ => rfl, fun hr => by simp at hr⟩

/-- C5 at a concrete input: the run with the default flags in which the first
key generation fails, after thirty-one secrets have been generated. -/
theorem mainWithError_stdout_witness :
    (mainWithError (testLib 0 true) "myenv" "example.com"
        { lib := 0, stdout := [], stderr := [] }).2.stdout = [] :=
  (mainWithError_stdout (testLib 0 true) "myenv" "example.com"
    { lib := 0, stdout := [], stderr := [] }
    { lib := 32, stdout := [], stderr := [] } (.panic "create ca key: no entropy") rfl).1
    (by simp)

/-- C4 as stated fails: when the first key generation fails, the run with the
default flags ends in a panic with the value `create ca key: no entropy`; what
reaches standard error is the runtime's panic report, no `error: ` line, and the
exit status is 2, not 1. -/
theorem main_panics_on_key_failure :
    (main (testLib 0 true) (fun v => v ++ "\n\ngoroutine 1 [running]:\n") "myenv" "example.com"
        { lib := 0, stdout := [], stderr := [] }).1.status = 2
    ∧ (main (testLib 0 true) (fun v => v ++ "\n\ngoroutine 1 [running]:\n") "myenv" "example.com"
        { lib := 0, stdout := [], stderr := [] }).2.stderr
        = ["panic: create ca key: no entropy\n\ngoroutine 1 [running]:\n"]
    ∧ (main (testLib 0 true) (fun v => v ++ "\n\ngoroutine 1 [running]:\n") "myenv" "example.com"
        { lib := 0, stdout := [], stderr := [] }).2.stdout = [] := by
  decide

/-! ## The generation steps, case by case -/

/-- The two ways `generatePassword` ends. -/
theorem generatePassword_cases {σ Key Cert CSR : Type} (L : Lib σ Key Cert CSR) (s : σ) :
    (∃ err s1, L.randRead 16 s = (.error err, s1)
        ∧ generatePassword L s = (.panic ("unable to read rand bytes: " ++ err), s1))
    ∨ (∃ data s1, L.randRead 16 s = (.ok data, s1)
        ∧ generatePassword L s
          = (.ok (passwordFromBytes (readInto (List.replicate 16 0) data)), s1)) := by
  rcases h : L.randRead 16 s with ⟨r, s1⟩
  cases r with
  | error err => exact Or.inl ⟨err, s1, rfl, by simp only [generatePassword, h]⟩
  | ok data => exact Or.inr ⟨data, s1, rfl, by simp only [generatePassword, h]⟩

/-- The two ways one round of `GeneratePasswords` ends. -/
theorem GeneratePasswords_cons {σ Key Cert CSR : Type} (L : Lib σ Key Cert CSR)
    (o : OutputData) (name : String) (rest : List String) (s : σ) :
    (∃ v s1, generatePassword L s = (.panic v, s1)
        ∧ GeneratePasswords L o (name :: rest) s = (.panic v, s1))
    ∨ (∃ pw s1, generatePassword L s = (.ok pw, s1)
        ∧ GeneratePasswords L o (name :: rest) s
          = GeneratePasswords L (o.set name pw) rest s1) := by
  rcases h : generatePassword L s with ⟨r, s1⟩
  cases r with
  | panic v => exact Or.inl ⟨v, s1, rfl, by simp only [GeneratePasswords, h]⟩
  | ok pw => exact Or.inr ⟨pw, s1, rfl, by simp only [GeneratePasswords, h]⟩

/-- The three ways `Init` ends. -/
theorem Init_cases {σ Key Cert CSR : Type} (L : Lib σ Key Cert CSR) (ca : CA Key Cert)
    (s : σ) :
    (∃ err s1, L.CreateRSAKey KeyBits s = (.error err, s1)
        ∧ ca.Init L s = (some ("create ca key: " ++ err), { ca with key := none }, s1))
    ∨ (∃ k s1 err s2, L.CreateRSAKey KeyBits s = (.ok k, s1)
        ∧ L.CreateCertificateAuthority (some k) "" CAExpiryYears "" "" "" "" ca.CommonName s1
            = (.error err, s2)
        ∧ ca.Init L s
          = (some ("create ca cert: " ++ err), { ca with key := some k, cert := none }, s2))
    ∨ (∃ k s1 c s2, L.CreateRSAKey KeyBits s = (.ok k, s1)
        ∧ L.CreateCertificateAuthority (some k) "" CAExpiryYears "" "" "" "" ca.CommonName s1
            = (.ok c, s2)
        ∧ ca.Init L s = (none, { ca with key := some k, cert := some c }, s2)) := by
  rcases h1 : L.CreateRSAKey KeyBits s with ⟨r1, s1⟩
  cases r1 with
  | error err => exact Or.inl ⟨err, s1, rfl, by simp only [CA.Init, h1]⟩
  | ok k =>
    right
    rcases h2 : L.CreateCertificateAuthority (some k) "" CAExpiryYears "" "" "" ""
      ca.CommonName s1 with ⟨r2, s2⟩
    cases r2 with
    | error err => exact Or.inl ⟨k, s1, err, s2, rfl, h2, by simp only [CA.Init, h1, h2]⟩
    | ok c => exact Or.inr ⟨k, s1, c, s2, rfl, h2, by simp only [CA.Init, h1, h2]⟩

/-- The two ways `asString` ends. -/
theorem asString_cases {σ Key Cert CSR : Type} (L : Lib σ Key Cert CSR) (e : Option Cert) :
    (∃ err, L.Export e = .error err ∧ asString L e = .error ("export pem: " ++ err))
    ∨ (∃ pem, L.Export e = .ok pem ∧ asString L e = .ok pem) := by
  cases h : L.Export e with
  | error err => exact Or.inl ⟨err, rfl, by simp only [asString, h]⟩
  | ok pem => exact Or.inr ⟨pem, rfl, by simp only [asString, h]⟩

/-- The two ways `PrivateKeyAsString` ends. -/
theorem PrivateKeyAsString_cases {σ Key Cert CSR : Type} (L : Lib σ Key Cert CSR)
    (kp : CertKeyPair Key Cert) :
    (∃ err, L.ExportPrivate kp.key = .error err
        ∧ kp.PrivateKeyAsString L = .error ("export private key: " ++ err))
    ∨ (∃ pem, L.ExportPrivate kp.key = .ok pem ∧ kp.PrivateKeyAsString L = .ok pem) := by
  cases h : L.ExportPrivate kp.key with
  | error err => exact Or.inl ⟨err, rfl, by simp only [CertKeyPair.PrivateKeyAsString, h]⟩
  | ok pem => exact Or.inr ⟨pem, rfl, by simp only [CertKeyPair.PrivateKeyAsString, h]⟩

/-- The five ways one round of the loop of `GenerateCerts` ends. -/
theorem loop_cons_cases {σ Key Cert CSR : Type} (L : Lib σ Key Cert CSR) (ca : CA Key Cert)
    (o : OutputData) (kp : CertKeyPair Key Cert) (rest : List (CertKeyPair Key Cert)) (s : σ) :
    (∃ err kp1 s1, ca.InitCertKeyPair L kp s = (some err, kp1, s1)
        ∧ GenerateCerts.loop L ca o (kp :: rest) s = (.panic err, s1))
    ∨ (∃ kp1 s1 err, ca.InitCertKeyPair L kp s = (none, kp1, s1)
        ∧ kp1.CertAsString L = .error err
        ∧ GenerateCerts.loop L ca o (kp :: rest) s = (.panic err, s1))
    ∨ (∃ kp1 s1 certPem err, ca.InitCertKeyPair L kp s = (none, kp1, s1)
        ∧ kp1.CertAsString L = .ok certPem ∧ kp1.PrivateKeyAsString L = .error err
        ∧ GenerateCerts.loop L ca o (kp :: rest) s = (.panic err, s1))
    ∨ (∃ kp1 s1 certPem keyPem v s2, ca.InitCertKeyPair L kp s = (none, kp1, s1)
        ∧ kp1.CertAsString L = .ok certPem ∧ kp1.PrivateKeyAsString L = .ok keyPem
        ∧ GenerateCerts.loop L ca
            ((o.set kp1.VarName_Cert certPem).set kp1.VarName_Key keyPem) rest s1
          = (.panic v, s2)
        ∧ GenerateCerts.loop L ca o (kp :: rest) s = (.panic v, s2))
    ∨ (∃ kp1 s1 certPem keyPem o2 kps s2, ca.InitCertKeyPair L kp s = (none, kp1, s1)
        ∧ kp1.CertAsString L = .ok certPem ∧ kp1.PrivateKeyAsString L = .ok keyPem
        ∧ GenerateCerts.loop L ca
            ((o.set kp1.VarName_Cert certPem).set kp1.VarName_Key keyPem) rest s1
          = (.ok (o2, kps), s2)
        ∧ GenerateCerts.loop L ca o (kp :: rest) s = (.ok (o2, kp1 :: kps), s2)) := by
  rcases h1 : ca.InitCertKeyPair L kp s with ⟨e, kp1, s1⟩
  cases e with
  | some err => exact Or.inl ⟨err, kp1, s1, rfl, by simp only [GenerateCerts.loop, h1]⟩
  | none =>
    right
    cases h2 : kp1.CertAsString L with
    | error err =>
      exact Or.inl ⟨kp1, s1, err, rfl, h2, by simp only [GenerateCerts.loop, h1, h2]⟩
    | ok certPem =>
      right
      cases h3 : kp1.PrivateKeyAsString L with
      | error err =>
        exact Or.inl ⟨kp1, s1, certPem, err, rfl, h2, h3,
          by simp only [GenerateCerts.loop, h1, h2, h3]⟩
      | ok keyPem =>
        right
        rcases h4 : GenerateCerts.loop L ca
          ((o.set kp1.VarName_Cert certPem).set kp1.VarName_Key keyPem) rest s1 with ⟨r, s2⟩
        cases r with
        | panic v =>
          exact Or.inl ⟨kp1, s1, certPem, keyPem, v, s2, rfl, h2, h3, h4,
            by simp only [GenerateCerts.loop, h1, h2, h3, h4]⟩
        | ok p =>
          obtain ⟨o2, kps⟩ := p
          exact Or.inr ⟨kp1, s1, certPem, keyPem, o2, kps, s2, rfl, h2, h3, h4,
            by simp only [GenerateCerts.loop, h1, h2, h3, h4]⟩

/-- The four ways `GenerateCerts` ends. -/
theorem GenerateCerts_cases {σ Key Cert CSR : Type} (L : Lib σ Key Cert CSR)
    (o : OutputData) (ca : CA Key Cert) (kps : List (CertKeyPair Key Cert)) (s : σ) :
    (∃ err ca1 s1, ca.Init L s = (some err, ca1, s1)
        ∧ GenerateCerts L o ca kps s = (.panic err, s1))
    ∨ (∃ ca1 s1 err, ca.Init L s = (none, ca1, s1) ∧ ca1.CACertAsString L = .error err
        ∧ GenerateCerts L o ca kps s = (.panic err, s1))
    ∨ (∃ ca1 s1 caPem v s2, ca.Init L s = (none, ca1, s1) ∧ ca1.CACertAsString L = .ok caPem
        ∧ GenerateCerts.loop L ca1 (o.set ca1.VarName_CA caPem) kps s1 = (.panic v, s2)
        ∧ GenerateCerts L o ca kps s = (.panic v, s2))
    ∨ (∃ ca1 s1 caPem o2 kps2 s2, ca.Init L s = (none, ca1, s1)
        ∧ ca1.CACertAsString L = .ok caPem
        ∧ GenerateCerts.loop L ca1 (o.set ca1.VarName_CA caPem) kps s1 = (.ok (o2, kps2), s2)
        ∧ GenerateCerts L o ca kps s = (.ok (o2, ca1, kps2), s2)) := by
  rcases h1 : ca.Init L s with ⟨e, ca1, s1⟩
  cases e with
  | some err => exact Or.inl ⟨err, ca1, s1, rfl, by simp only [GenerateCerts, h1]⟩
  | none =>
    right
    cases h2 : ca1.CACertAsString L with
    | error err => exact Or.inl ⟨ca1, s1, err, rfl, h2, by simp only [GenerateCerts, h1, h2]⟩
    | ok caPem =>
      right
      rcases h3 : GenerateCerts.loop L ca1 (o.set ca1.VarName_CA caPem) kps s1 with ⟨r, s2⟩
      cases r with
      | panic v =>
        exact Or.inl ⟨ca1, s1, caPem, v, s2, rfl, h2, h3,
          by simp only [GenerateCerts, h1, h2, h3]⟩
      | ok p =>
        obtain ⟨o2, kps2⟩ := p
        exact Or.inr ⟨ca1, s1, caPem, o2, kps2, s2, rfl, h2, h3,
          by simp only [GenerateCerts, h1, h2, h3]⟩

/-- The four ways `assemble` ends. -/
theorem assemble_cases {σ Key Cert CSR : Type} (L : Lib σ Key Cert CSR)
    (envName dnsBaseName : String) (s : σ) :
    (∃ v s1, GeneratePasswords L (uriFields envName dnsBaseName) secretFields s = (.panic v, s1)
        ∧ assemble L envName dnsBaseName s = (.panic v, s1))
    ∨ (∃ o1 s1 v s2,
        GeneratePasswords L (uriFields envName dnsBaseName) secretFields s = (.ok o1, s1)
        ∧ GenerateCerts L (userFields o1) etcdCA [etcdServer, etcdClient] s1 = (.panic v, s2)
        ∧ assemble L envName dnsBaseName s = (.panic v, s2))
    ∨ (∃ o1 s1 o2 ca1 kps1 s2 v s3,
        GeneratePasswords L (uriFields envName dnsBaseName) secretFields s = (.ok o1, s1)
        ∧ GenerateCerts L (userFields o1) etcdCA [etcdServer, etcdClient] s1
            = (.ok (o2, ca1, kps1), s2)
        ∧ GenerateCerts L o2 etcdPeerCA [etcdPeer] s2 = (.panic v, s3)
        ∧ assemble L envName dnsBaseName s = (.panic v, s3))
    ∨ (∃ o1 s1 o2 ca1 kps1 s2 o3 ca2 kps2 s3,
        GeneratePasswords L (uriFields envName dnsBaseName) secretFields s = (.ok o1, s1)
        ∧ GenerateCerts L (userFields o1) etcdCA [etcdServer, etcdClient] s1
            = (.ok (o2, ca1, kps1), s2)
        ∧ GenerateCerts L o2 etcdPeerCA [etcdPeer] s2 = (.ok (o3, ca2, kps2), s3)
        ∧ assemble L envName dnsBaseName s = (.ok o3, s3)) := by
  rcases h1 : GeneratePasswords L (uriFields envName dnsBaseName) secretFields s with ⟨r1, s1⟩
  cases r1 with
  | panic v => exact Or.inl ⟨v, s1, rfl, by simp only [assemble, h1]⟩
  | ok o1 =>
    right
    rcases h2 : GenerateCerts L (userFields o1) etcdCA [etcdServer, etcdClient] s1
      with ⟨r2, s2⟩
    cases r2 with
    | panic v => exact Or.inl ⟨o1, s1, v, s2, rfl, h2, by simp only [assemble, h1, h2]⟩
    | ok p2 =>
      obtain ⟨o2, ca1, kps1⟩ := p2
      right
      rcases h3 : GenerateCerts L o2 etcdPeerCA [etcdPeer] s2 with ⟨r3, s3⟩
      cases r3 with
      | panic v =>
        exact Or.inl ⟨o1, s1, o2, ca1, kps1, s2, v, s3, rfl, h2, h3,
          by simp only [assemble, h1, h2, h3]⟩
      | ok p3 =>
        obtain ⟨o3, ca2, kps2⟩ := p3
        exact Or.inr ⟨o1, s1, o2, ca1, kps1, s2, o3, ca2, kps2, s3, rfl, h2, h3,
          by simp only [assemble, h1, h2, h3]⟩


/-! ## The value of a panic names the step that failed -/

theorem GeneratePasswords_panic {σ Key Cert CSR : Type} (L : Lib σ Key Cert CSR)
    (names : List String) : ∀ (o : OutputData) (s s1 : σ) (v : String),
      GeneratePasswords L o names s = (.panic v, s1) →
        ∃ err, v = "unable to read rand bytes: " ++ err := by
  induction names with
  | nil =>
    intro o s s1 v h
    simp [GeneratePasswords] at h
  | cons name rest ih =>
    intro o s s1 v h
    rcases GeneratePasswords_cons L o name rest s with ⟨v2, t1, hg, hp⟩ | ⟨pw, t1, hg, hp⟩
    · rw [hp] at h
      simp only [Prod.mk.injEq, Outcome.panic.injEq] at h
      rcases generatePassword_cases L s with ⟨err, t2, _, hq⟩ | ⟨data, t2, _, hq⟩
      · rw [hq] at hg
        simp only [Prod.mk.injEq, Outcome.panic.injEq] at hg
        exact ⟨err, by rw [← h.1, ← hg.1]⟩
      · rw [hq] at hg
        simp at hg
    · rw [hp] at h
      exact ih _ _ _ _ h

theorem Init_error {σ Key Cert CSR : Type} (L : Lib σ Key Cert CSR) (ca ca1 : CA Key Cert)
    (s s1 : σ) (e : String) (h : ca.Init L s = (some e, ca1, s1)) :
    ∃ p ∈ stepPrefixes, ∃ err, e = p ++ err := by
  rcases Init_cases L ca s with ⟨err, t1, _, hq⟩ | ⟨k, t1, err, t2, _, _, hq⟩
    | ⟨k, t1, c, t2, _, _, hq⟩
  · rw [hq] at h
    simp only [Prod.mk.injEq, Option.some.injEq] at h
    exact ⟨"create ca key: ", by decide, err, h.1.symm⟩
  · rw [hq] at h
    simp only [Prod.mk.injEq, Option.some.injEq] at h
    exact ⟨"create ca cert: ", by decide, err, h.1.symm⟩
  · rw [hq] at h
    simp at h

theorem Init_names {σ Key Cert CSR : Type} (L : Lib σ Key Cert CSR) (ca ca1 : CA Key Cert)
    (s s1 : σ) (e : GoError) (h : ca.Init L s = (e, ca1, s1)) :
    ca1.VarName_CA = ca.VarName_CA := by
  rcases Init_cases L ca s with ⟨err, t1, _, hq⟩ | ⟨k, t1, err, t2, _, _, hq⟩
    | ⟨k, t1, c, t2, _, _, hq⟩ <;>
  · rw [hq] at h
    simp only [Prod.mk.injEq] at h
    rw [← h.2.1]

theorem InitCertKeyPair_names {σ Key Cert CSR : Type} (L : Lib σ Key Cert CSR)
    (ca : CA Key Cert) (kp kp1 : CertKeyPair Key Cert) (s s1 : σ) (e : GoError)
    (h : ca.InitCertKeyPair L kp s = (e, kp1, s1)) :
    kp1.VarName_Cert = kp.VarName_Cert ∧ kp1.VarName_Key = kp.VarName_Key := by
  rcases InitCertKeyPair_cases L ca kp s with
    ⟨err, t1, _, hq⟩ | ⟨k, t1, err, t2, _, _, hq⟩ | ⟨k, t1, csr, t2, err, t3, _, _, _, hq⟩
      | ⟨k, t1, csr, t2, c, t3, _, _, _, hq⟩ <;>
  · rw [hq] at h
    simp only [Prod.mk.injEq] at h
    rw [← h.2.1]
    exact ⟨rfl, rfl⟩

theorem InitCertKeyPair_error {σ Key Cert CSR : Type} (L : Lib σ Key Cert CSR)
    (ca : CA Key Cert) (kp kp1 : CertKeyPair Key Cert) (s s1 : σ) (e : String)
    (h : ca.InitCertKeyPair L kp s = (some e, kp1, s1)) :
    ∃ p ∈ stepPrefixes, ∃ err, e = p ++ err := by
  rcases InitCertKeyPair_cases L ca kp s with
    ⟨err, t1, _, hq⟩ | ⟨k, t1, err, t2, _, _, hq⟩ | ⟨k, t1, csr, t2, err, t3, _, _, _, hq⟩
      | ⟨k, t1, csr, t2, c, t3, _, _, _, hq⟩
  · rw [hq] at h
    simp only [Prod.mk.injEq, Option.some.injEq] at h
    exact ⟨"create host key: ", by decide, err, h.1.symm⟩
  · rw [hq] at h
    simp only [Prod.mk.injEq, Option.some.injEq] at h
    exact ⟨"create host csr: ", by decide, err, h.1.symm⟩
  · rw [hq] at h
    simp only [Prod.mk.injEq, Option.some.injEq] at h
    exact ⟨"sign host csr: ", by decide, err, h.1.symm⟩
  · rw [hq] at h
    simp at h

theorem asString_error {σ Key Cert CSR : Type} (L : Lib σ Key Cert CSR) (c : Option Cert)
    (e : String) (h : asString L c = .error e) : ∃ p ∈ stepPrefixes, ∃ err, e = p ++ err := by
  rcases asString_cases L c with ⟨err, _, hq⟩ | ⟨pem, _, hq⟩
  · rw [hq] at h
    simp only [Except.error.injEq] at h
    exact ⟨"export pem: ", by decide, err, h.symm⟩
  · rw [hq] at h
    simp at h

theorem PrivateKeyAsString_error {σ Key Cert CSR : Type} (L : Lib σ Key Cert CSR)
    (kp : CertKeyPair Key Cert) (e : String) (h : kp.PrivateKeyAsString L = .error e) :
    ∃ p ∈ stepPrefixes, ∃ err, e = p ++ err := by
  rcases PrivateKeyAsString_cases L kp with ⟨err, _, hq⟩ | ⟨pem, _, hq⟩
  · rw [hq] at h
    simp only [Except.error.injEq] at h
    exact ⟨"export private key: ", by decide, err, h.symm⟩
  · rw [hq] at h
    simp at h

theorem loop_panic {σ Key Cert CSR : Type} (L : Lib σ Key Cert CSR) (ca : CA Key Cert)
    (kps : List (CertKeyPair Key Cert)) : ∀ (o : OutputData) (s s1 : σ) (v : String),
      GenerateCerts.loop L ca o kps s = (.panic v, s1) →
        ∃ p ∈ stepPrefixes, ∃ err, v = p ++ err := by
  induction kps with
  | nil =>
    intro o s s1 v h
    simp [GenerateCerts.loop] at h
  | cons kp rest ih =>
    intro o s s1 v h
    rcases loop_cons_cases L ca o kp rest s with
      ⟨err, kp1, t1, h1, hq⟩ | ⟨kp1, t1, err, _, h2, hq⟩ | ⟨kp1, t1, certPem, err, _, _, h3, hq⟩
        | ⟨kp1, t1, certPem, keyPem, v2, t2, _, _, _, h4, hq⟩
        | ⟨kp1, t1, certPem, keyPem, o2, kps2, t2, _, _, _, _, hq⟩
    · rw [hq] at h
      simp only [Prod.mk.injEq, Outcome.panic.injEq] at h
      rw [← h.1]
      exact InitCertKeyPair_error L ca kp kp1 s t1 err h1
    · rw [hq] at h
      simp only [Prod.mk.injEq, Outcome.panic.injEq] at h
      rw [← h.1]
      exact asString_error L kp1.cert err h2
    · rw [hq] at h
      simp only [Prod.mk.injEq, Outcome.panic.injEq] at h
      rw [← h.1]
      exact PrivateKeyAsString_error L kp1 err h3
    · rw [hq] at h
      simp only [Prod.mk.injEq, Outcome.panic.injEq] at h
      rw [← h.1]
      exact ih _ _ _ _ h4
    · rw [hq] at h
      simp at h

theorem GenerateCerts_panic {σ Key Cert CSR : Type} (L : Lib σ Key Cert CSR)
    (o : OutputData) (ca : CA Key Cert) (kps : List (CertKeyPair Key Cert)) (s s1 : σ)
    (v : String) (h : GenerateCerts L o ca kps s = (.panic v, s1)) :
    ∃ p ∈ stepPrefixes, ∃ err, v = p ++ err := by
  rcases GenerateCerts_cases L o ca kps s with
    ⟨err, ca1, t1, h1, hq⟩ | ⟨ca1, t1, err, _, h2, hq⟩ | ⟨ca1, t1, caPem, v2, t2, _, _, h3, hq⟩
      | ⟨ca1, t1, caPem, o2, kps2, t2, _, _, _, hq⟩
  · rw [hq] at h
    simp only [Prod.mk.injEq, Outcome.panic.injEq] at h
    rw [← h.1]
    exact Init_error L ca ca1 s t1 err h1
  · rw [hq] at h
    simp only [Prod.mk.injEq, Outcome.panic.injEq] at h
    rw [← h.1]
    exact asString_error L ca1.cert err h2
  · rw [hq] at h
    simp only [Prod.mk.injEq, Outcome.panic.injEq] at h
    rw [← h.1]
    exact loop_panic L ca1 kps _ _ _ _ h3
  · rw [hq] at h
    simp at h

theorem assemble_panic {σ Key Cert CSR : Type} (L : Lib σ Key Cert CSR)
    (envName dnsBaseName : String) (s s1 : σ) (v : String)
    (h : assemble L envName dnsBaseName s = (.panic v, s1)) :
    ∃ p ∈ stepPrefixes, ∃ err, v = p ++ err := by
  rcases assemble_cases L envName dnsBaseName s with
    ⟨v2, t1, h1, hq⟩ | ⟨o1, t1, v2, t2, _, h2, hq⟩
      | ⟨o1, t1, o2, ca1, kps1, t2, v2, t3, _, _, h3, hq⟩
      | ⟨o1, t1, o2, ca1, kps1, t2, o3, ca2, kps2, t3, _, _, _, hq⟩
  · rw [hq] at h
    simp only [Prod.mk.injEq, Outcome.panic.injEq] at h
    rw [← h.1]
    obtain ⟨err, he⟩ := GeneratePasswords_panic L _ _ _ _ _ h1
    exact ⟨"unable to read rand bytes: ", by decide, err, he⟩
  · rw [hq] at h
    simp only [Prod.mk.injEq, Outcome.panic.injEq] at h
    rw [← h.1]
    exact GenerateCerts_panic L _ _ _ _ _ _ h2
  · rw [hq] at h
    simp only [Prod.mk.injEq, Outcome.panic.injEq] at h
    rw [← h.1]
    exact GenerateCerts_panic L _ _ _ _ _ _ h3
  · rw [hq] at h
    simp at h

/-! ## A failure at any position reaches `main` -/

theorem GeneratePasswords_append {σ Key Cert CSR : Type} (L : Lib σ Key Cert CSR)
    (pre rest : List String) : ∀ (o o1 : OutputData) (s s1 : σ),
      GeneratePasswords L o pre s = (.ok o1, s1) →
        GeneratePasswords L o (pre ++ rest) s = GeneratePasswords L o1 rest s1 := by
  induction pre with
  | nil =>
    intro o o1 s s1 h
    simp only [GeneratePasswords, Prod.mk.injEq, Outcome.ok.injEq] at h
    rw [List.nil_append, h.1, h.2]
  | cons name pre ih =>
    intro o o1 s s1 h
    rcases GeneratePasswords_cons L o name pre s with ⟨v, t, _, hp⟩ | ⟨pw, t, hg, hp⟩
    · rw [hp] at h
      simp at h
    · rw [hp] at h
      rw [List.cons_append]
      rcases GeneratePasswords_cons L o name (pre ++ rest) s with
        ⟨v, t2, hg2, _⟩ | ⟨pw2, t2, hg2, hp2⟩
      · rw [hg] at hg2
        simp at hg2
      · rw [hg] at hg2
        simp only [Prod.mk.injEq, Outcome.ok.injEq] at hg2
        rw [hp2, ← hg2.1, ← hg2.2]
        exact ih _ _ _ _ h

theorem loop_append_panic {σ Key Cert CSR : Type} (L : Lib σ Key Cert CSR) (ca : CA Key Cert)
    (pre rest : List (CertKeyPair Key Cert)) :
    ∀ (o o1 : OutputData) (pre1 : List (CertKeyPair Key Cert)) (s s1 t : σ) (v : String),
      GenerateCerts.loop L ca o pre s = (.ok (o1, pre1), s1) →
      GenerateCerts.loop L ca o1 rest s1 = (.panic v, t) →
        GenerateCerts.loop L ca o (pre ++ rest) s = (.panic v, t) := by
  induction pre with
  | nil =>
    intro o o1 pre1 s s1 t v h hr
    simp only [GenerateCerts.loop, Prod.mk.injEq, Outcome.ok.injEq] at h
    rw [List.nil_append, h.1.1, h.2]
    exact hr
  | cons kp pre ih =>
    intro o o1 pre1 s s1 t v h hr
    rcases loop_cons_cases L ca o kp pre s with
      ⟨err, kp1, t1, _, hq⟩ | ⟨kp1, t1, err, _, _, hq⟩ | ⟨kp1, t1, certPem, err, _, _, _, hq⟩
        | ⟨kp1, t1, certPem, keyPem, v2, t2, _, _, _, _, hq⟩
        | ⟨kp1, t1, certPem, keyPem, o2, kps2, t2, h1, h2, h3, h4, hq⟩
    · rw [hq] at h; simp at h
    · rw [hq] at h; simp at h
    · rw [hq] at h; simp at h
    · rw [hq] at h; simp at h
    · rw [hq] at h
      simp only [Prod.mk.injEq, Outcome.ok.injEq] at h
      obtain ⟨⟨ho, _⟩, hs⟩ := h
      subst ho hs
      have hrec := ih _ _ _ _ _ _ _ h4 hr
      show GenerateCerts.loop L ca o (kp :: (pre ++ rest)) s = _
      simp only [GenerateCerts.loop, h1, h2, h3, hrec]

/-- A panic of the loop behind leaves that were issued is a panic of
`GenerateCerts`. -/
theorem GenerateCerts_leaf_panic {σ Key Cert CSR : Type} (L : Lib σ Key Cert CSR)
    (o o1 : OutputData) (ca ca1 : CA Key Cert) (pre pre1 rest : List (CertKeyPair Key Cert))
    (s s1 s2 t : σ) (caPem v : String)
    (hinit : ca.Init L s = (none, ca1, s1)) (hpem : L.Export ca1.cert = .ok caPem)
    (hpre : GenerateCerts.loop L ca1 (o.set ca1.VarName_CA caPem) pre s1 = (.ok (o1, pre1), s2))
    (hrest : GenerateCerts.loop L ca1 o1 rest s2 = (.panic v, t)) :
    GenerateCerts L o ca (pre ++ rest) s = (.panic v, t) := by
  have hloop := loop_append_panic L ca1 pre rest _ _ _ _ _ _ _ hpre hrest
  simp only [GenerateCerts, hinit, CA.CACertAsString, asString, hpem, hloop]

/-- A panic of `assemble` is a panic of `main`, reported by the runtime. -/
theorem main_of_assemble_panic {σ Key Cert CSR : Type} (L : Lib σ Key Cert CSR)
    (report : String → String) (envName dnsBaseName : String) (w : World σ) (v : String)
    (t : σ) (h : assemble L envName dnsBaseName w.lib = (.panic v, t)) :
    main L report envName dnsBaseName w
      = (.panicked v,
          { lib := t, stdout := w.stdout, stderr := w.stderr ++ ["panic: " ++ report v] }) := by
  simp only [main, mainWithError, h]

/-- C4, amended: a run in which `flag.Parse` returns ends in one of three
ways.  With no failure the marshalled manifest is written once to standard
output, nothing is printed to standard error and the exit code is 0.  When YAML
serialization fails the program prints the one line
`error: marshaling output as yaml: <message>` to standard error, writes nothing
to standard output and exits with code 1.  When a generation step fails the run
panics with the step's prefix followed by the library's message; standard output
stays empty, standard error receives the runtime's panic report, which begins
`panic: ` and is no `error: ` line, and the process ends with the status 2 of an
unrecovered panic.  The steps: a failed read for any of the secrets
(`unable to read rand bytes: `); in either `GenerateCerts` call a failed CA key
(`create ca key: `), CA certificate (`create ca cert: `) or CA export
(`export pem: `), and for a leaf at any position, behind leaves that were
issued, a failed key (`create host key: `), CSR (`create host csr: `), signing
(`sign host csr: `), certificate export (`export pem: `) or key export
(`export private key: `); a panic of either `GenerateCerts` call is the panic of
`main`. -/
theorem main_cases {σ Key Cert CSR : Type} (L : Lib σ Key Cert CSR)
    (report : String → String) (envName dnsBaseName : String) (w : World σ) :
    ((∃ o s out, assemble L envName dnsBaseName w.lib = (.ok o, s) ∧ L.Marshal o = .ok out
        ∧ main L report envName dnsBaseName w
          = (.exited 0, { lib := s, stdout := w.stdout ++ [out], stderr := w.stderr }))
      ∨ (∃ o s err, assemble L envName dnsBaseName w.lib = (.ok o, s)
        ∧ L.Marshal o = .error err
        ∧ main L report envName dnsBaseName w
          = (.exited 1,
              { lib := s, stdout := w.stdout,
                stderr := w.stderr
                  ++ ["error: " ++ ("marshaling output as yaml: " ++ err) ++ "\n"] }))
      ∨ (∃ v s, assemble L envName dnsBaseName w.lib = (.panic v, s)
        ∧ (∃ p ∈ stepPrefixes, ∃ err, v = p ++ err)
        ∧ main L report envName dnsBaseName w
          = (.panicked v,
              { lib := s, stdout := w.stdout, stderr := w.stderr ++ ["panic: " ++ report v] })
        ∧ (Termination.panicked v).status = 2))
    ∧ (∀ pre name post o1 s1 err t, secretFields = pre ++ name :: post →
        GeneratePasswords L (uriFields envName dnsBaseName) pre w.lib = (.ok o1, s1) →
        L.randRead 16 s1 = (.error err, t) →
        main L report envName dnsBaseName w
          = (.panicked ("unable to read rand bytes: " ++ err),
              { lib := t, stdout := w.stdout,
                stderr := w.stderr
                  ++ ["panic: " ++ report ("unable to read rand bytes: " ++ err)] }))
    ∧ (∀ o (ca : CA Key Cert) kps s err t, L.CreateRSAKey KeyBits s = (.error err, t) →
        GenerateCerts L o ca kps s = (.panic ("create ca key: " ++ err), t))
    ∧ (∀ o (ca : CA Key Cert) kps s k s1 err t, L.CreateRSAKey KeyBits s = (.ok k, s1) →
        L.CreateCertificateAuthority (some k) "" CAExpiryYears "" "" "" "" ca.CommonName s1
          = (.error err, t) →
        GenerateCerts L o ca kps s = (.panic ("create ca cert: " ++ err), t))
    ∧ (∀ (ca ca1 : CA Key Cert) s s1, ca.Init L s = (none, ca1, s1) →
        ∃ k c, ca1.key = some k ∧ ca1.cert = some c)
    ∧ (∀ o (ca ca1 : CA Key Cert) kps s s1 err, ca.Init L s = (none, ca1, s1) →
        L.Export ca1.cert = .error err →
        GenerateCerts L o ca kps s = (.panic ("export pem: " ++ err), s1))
    ∧ (∀ o o1 (ca ca1 : CA Key Cert) pre pre1 kp post s s1 s2 caPem,
        ca.Init L s = (none, ca1, s1) → L.Export ca1.cert = .ok caPem →
        GenerateCerts.loop L ca1 (o.set ca1.VarName_CA caPem) pre s1 = (.ok (o1, pre1), s2) →
        (∀ err t, L.CreateRSAKey KeyBits s2 = (.error err, t) →
          GenerateCerts L o ca (pre ++ kp :: post) s = (.panic ("create host key: " ++ err), t))
        ∧ (∀ k t1 err t, L.CreateRSAKey KeyBits s2 = (.ok k, t1) →
          L.CreateCertificateSigningRequest (some k) "" [] kp.Domains "" "" "" ""
            kp.CommonName t1 = (.error err, t) →
          GenerateCerts L o ca (pre ++ kp :: post) s = (.panic ("create host csr: " ++ err), t))
        ∧ (∀ k t1 csr t2 err t, L.CreateRSAKey KeyBits s2 = (.ok k, t1) →
          L.CreateCertificateSigningRequest (some k) "" [] kp.Domains "" "" "" ""
            kp.CommonName t1 = (.ok csr, t2) →
          L.CreateCertificateHost ca1.cert ca1.key csr HostCertExpiryYears t2
            = (.error err, t) →
          GenerateCerts L o ca (pre ++ kp :: post) s = (.panic ("sign host csr: " ++ err), t))
        ∧ (∀ kp1 t1 err, ca1.InitCertKeyPair L kp s2 = (none, kp1, t1) →
          L.Export kp1.cert = .error err →
          GenerateCerts L o ca (pre ++ kp :: post) s = (.panic ("export pem: " ++ err), t1))
        ∧ (∀ kp1 t1 certPem err, ca1.InitCertKeyPair L kp s2 = (none, kp1, t1) →
          L.Export kp1.cert = .ok certPem → L.ExportPrivate kp1.key = .error err →
          GenerateCerts L o ca (pre ++ kp :: post) s
            = (.panic ("export private key: " ++ err), t1)))
    ∧ (∀ o1 s1 v t,
        GeneratePasswords L (uriFields envName dnsBaseName) secretFields w.lib = (.ok o1, s1) →
        GenerateCerts L (userFields o1) etcdCA [etcdServer, etcdClient] s1 = (.panic v, t) →
        main L report envName dnsBaseName w
          = (.panicked v,
              { lib := t, stdout := w.stdout, stderr := w.stderr ++ ["panic: " ++ report v] }))
    ∧ (∀ o1 s1 o2 (ca1 : CA Key Cert) kps1 s2 v t,
        GeneratePasswords L (uriFields envName dnsBaseName) secretFields w.lib = (.ok o1, s1) →
        GenerateCerts L (userFields o1) etcdCA [etcdServer, etcdClient] s1
          = (.ok (o2, ca1, kps1), s2) →
        GenerateCerts L o2 etcdPeerCA [etcdPeer] s2 = (.panic v, t) →
        main L report envName dnsBaseName w
          = (.panicked v,
              { lib := t, stdout := w.stdout, stderr := w.stderr ++ ["panic: " ++ report v] }))
    ∧ (∀ x y : String, "panic: " ++ x ≠ "error: " ++ y) := by
  refine ⟨?_, ?_, ?_, ?_, ?_, ?_, ?_, ?_, ?_, ?_⟩
  · rcases mainWithError_cases L envName dnsBaseName w with
      ⟨o, s, out, h1, h2, h⟩ | ⟨o, s, err, h1, h2, h⟩ | ⟨v, s, h1, h⟩
    · exact Or.inl ⟨o, s, out, h1, h2, by simp only [main, h]⟩
    · exact Or.inr (Or.inl ⟨o, s, err, h1, h2, by simp only [main, h]⟩)
    · exact Or.inr (Or.inr ⟨v, s, h1, assemble_panic L _ _ _ _ _ h1,
        main_of_assemble_panic L report _ _ w v s h1, rfl⟩)
  · intro pre name post o1 s1 err t hsplit hpre hread
    apply main_of_assemble_panic
    have hgen : generatePassword L s1 = (.panic ("unable to read rand bytes: " ++ err), t) := by
      simp only [generatePassword, hread]
    have hrest : GeneratePasswords L o1 (name :: post) s1
        = (.panic ("unable to read rand bytes: " ++ err), t) := by
      simp only [GeneratePasswords, hgen]
    have hall := GeneratePasswords_append L pre (name :: post) _ _ _ _ hpre
    rw [hrest, ← hsplit] at hall
    simp only [assemble, hall]
  · intro o ca kps s err t h
    simp only [GenerateCerts, CA.Init, h]
  · intro o ca kps s k s1 err t h h2
    simp only [GenerateCerts, CA.Init, h, h2]
  · intro ca ca1 s s1 h
    rcases Init_cases L ca s with ⟨err, t1, _, hq⟩ | ⟨k, t1, err, t2, _, _, hq⟩
      | ⟨k, t1, c, t2, _, _, hq⟩
    · rw [hq] at h; simp at h
    · rw [hq] at h; simp at h
    · rw [hq] at h
      simp only [Prod.mk.injEq, true_and] at h
      exact ⟨k, c, by rw [← h.1], by rw [← h.1]⟩
  · intro o ca ca1 kps s s1 err h h2
    simp only [GenerateCerts, h, CA.CACertAsString, asString, h2]
  · intro o o1 ca ca1 pre pre1 kp post s s1 s2 caPem hinit hpem hpre
    refine ⟨?_, ?_, ?_, ?_, ?_⟩
    · intro err t h
      apply GenerateCerts_leaf_panic L o o1 ca ca1 pre pre1 _ s s1 s2 t caPem _ hinit hpem hpre
      simp only [GenerateCerts.loop, CA.InitCertKeyPair, h]
    · intro k t1 err t h h2
      apply GenerateCerts_leaf_panic L o o1 ca ca1 pre pre1 _ s s1 s2 t caPem _ hinit hpem hpre
      simp only [GenerateCerts.loop, CA.InitCertKeyPair, h, h2]
    · intro k t1 csr t2 err t h h2 h3
      apply GenerateCerts_leaf_panic L o o1 ca ca1 pre pre1 _ s s1 s2 t caPem _ hinit hpem hpre
      simp only [GenerateCerts.loop, CA.InitCertKeyPair, h, h2, h3]
    · intro kp1 t1 err h h2
      apply GenerateCerts_leaf_panic L o o1 ca ca1 pre pre1 _ s s1 s2 t1 caPem _ hinit hpem hpre
      simp only [GenerateCerts.loop, h, CertKeyPair.CertAsString, asString, h2]
    · intro kp1 t1 certPem err h h2 h3
      apply GenerateCerts_leaf_panic L o o1 ca ca1 pre pre1 _ s s1 s2 t1 caPem _ hinit hpem hpre
      simp only [GenerateCerts.loop, h, CertKeyPair.CertAsString, asString, h2,
        CertKeyPair.PrivateKeyAsString, h3]
  · intro o1 s1 v t h1 h2
    apply main_of_assemble_panic
    simp only [assemble, h1, h2]
  · intro o1 s1 o2 ca1 kps1 s2 v t h1 h2 h3
    apply main_of_assemble_panic
    simp only [assemble, h1, h2, h3]
  · intro x y
    exact prefixed_ne _ _ _ _ 0 (by decide) (by decide) (by decide)

/-- C4, amended, at a concrete input: over a library whose key generation
fails at the third key, the first `GenerateCerts` call issues the server leaf
and panics at the key of the client leaf, the second leaf of its list. -/
theorem main_cases_witness :
    GenerateCerts (testLib 36 true) OutputData.empty etcdCA ([etcdServer] ++ etcdClient :: []) 31
      = (.panic ("create host key: " ++ "no entropy"), 37) :=
  ((main_cases (testLib 36 true) id "myenv" "example.com"
      { lib := 0, stdout := [], stderr := [] }).2.2.2.2.2.2.1
    OutputData.empty _ etcdCA _ [etcdServer] _ etcdClient [] 31 33 36 "CERTIFICATE etcdCA"
    rfl rfl rfl).1 "no entropy" 37 rfl

/-! ## What a successful run assigns -/

theorem get_set (o : OutputData) (k v k2 : String) :
    (o.set k v).get k2 = if k2 = k then some v else o.get k2 := by
  by_cases h : k2 = k
  · rw [if_pos h, h, get_set_same]
  · rw [if_neg h, get_set_other _ _ _ _ h]

theorem keys_setEntries (k v : String) (l : List (String × String)) :
    (OutputData.setEntries k v l).map Prod.fst = insertKey k (l.map Prod.fst) := by
  induction l with
  | nil => simp [OutputData.setEntries, insertKey]
  | cons e rest ih =>
    unfold OutputData.setEntries insertKey
    by_cases h1 : e.1 = k
    · simp [h1]
    · have h2 : ¬ k = e.1 := fun h => h1 h.symm
      rw [if_neg h1, List.map_cons, ih]
      unfold insertKey
      by_cases h3 : k ∈ rest.map Prod.fst
      · simp only [List.map_cons, List.mem_cons, h2, false_or, h3, if_true]
      · simp only [List.map_cons, List.mem_cons, h2, false_or, h3, if_false, List.cons_append]

theorem keys_set (o : OutputData) (k v : String) : (o.set k v).keys = insertKey k o.keys :=
  keys_setEntries k v o.entries

theorem GeneratePasswords_ok {σ Key Cert CSR : Type} (L : Lib σ Key Cert CSR)
    (names : List String) : ∀ (o o1 : OutputData) (s s1 : σ),
      GeneratePasswords L o names s = (.ok o1, s1) →
        (∀ k, k ∉ names → o1.get k = o.get k)
        ∧ o1.keys = names.foldl (fun ks k => insertKey k ks) o.keys := by
  induction names with
  | nil =>
    intro o o1 s s1 h
    simp only [GeneratePasswords, Prod.mk.injEq, Outcome.ok.injEq] at h
    rw [← h.1]
    exact ⟨fun _ _ => rfl, rfl⟩
  | cons name rest ih =>
    intro o o1 s s1 h
    rcases GeneratePasswords_cons L o name rest s with ⟨v2, t1, _, hp⟩ | ⟨pw, t1, _, hp⟩
    · rw [hp] at h
      simp at h
    · rw [hp] at h
      obtain ⟨hget, hkeys⟩ := ih _ _ _ _ h
      constructor
      · intro k hk
        rw [List.mem_cons, not_or] at hk
        rw [hget k hk.2, get_set_other _ _ _ _ hk.1]
      · rw [hkeys, keys_set, List.foldl_cons]

theorem loop_ok {σ Key Cert CSR : Type} (L : Lib σ Key Cert CSR) (ca : CA Key Cert)
    (kps : List (CertKeyPair Key Cert)) :
    ∀ (o o1 : OutputData) (kps1 : List (CertKeyPair Key Cert)) (s s1 : σ),
      GenerateCerts.loop L ca o kps s = (.ok (o1, kps1), s1) →
        (∀ k, k ∉ leafFields kps → o1.get k = o.get k)
        ∧ o1.keys = (leafFields kps).foldl (fun ks k => insertKey k ks) o.keys := by
  induction kps with
  | nil =>
    intro o o1 kps1 s s1 h
    simp only [GenerateCerts.loop, Prod.mk.injEq, Outcome.ok.injEq] at h
    rw [← h.1.1]
    exact ⟨fun _ _ => rfl, rfl⟩
  | cons kp rest ih =>
    intro o o1 kps1 s s1 h
    rcases loop_cons_cases L ca o kp rest s with
      ⟨err, kp1, t1, _, hq⟩ | ⟨kp1, t1, err, _, _, hq⟩ | ⟨kp1, t1, certPem, err, _, _, _, hq⟩
        | ⟨kp1, t1, certPem, keyPem, v2, t2, _, _, _, _, hq⟩
        | ⟨kp1, t1, certPem, keyPem, o2, kps2, t2, h1, _, _, h4, hq⟩
    · rw [hq] at h; simp at h
    · rw [hq] at h; simp at h
    · rw [hq] at h; simp at h
    · rw [hq] at h; simp at h
    · rw [hq] at h
      simp only [Prod.mk.injEq, Outcome.ok.injEq] at h
      obtain ⟨⟨ho, _⟩, _⟩ := h
      subst ho
      obtain ⟨hn1, hn2⟩ := InitCertKeyPair_names L ca kp kp1 s t1 none h1
      rw [hn1, hn2] at h4
      obtain ⟨hget, hkeys⟩ := ih _ _ _ _ _ h4
      constructor
      · intro k hk
        simp only [leafFields, List.mem_cons, not_or] at hk
        rw [hget k hk.2.2, get_set_other _ _ _ _ hk.2.1, get_set_other _ _ _ _ hk.1]
      · rw [hkeys, keys_set, keys_set]
        rfl

theorem GenerateCerts_ok {σ Key Cert CSR : Type} (L : Lib σ Key Cert CSR)
    (o o1 : OutputData) (ca ca1 : CA Key Cert) (kps kps1 : List (CertKeyPair Key Cert))
    (s s1 : σ) (h : GenerateCerts L o ca kps s = (.ok (o1, ca1, kps1), s1)) :
    (∀ k, k ∉ ca.VarName_CA :: leafFields kps → o1.get k = o.get k)
    ∧ o1.keys = (ca.VarName_CA :: leafFields kps).foldl (fun ks k => insertKey k ks) o.keys := by
  rcases GenerateCerts_cases L o ca kps s with
    ⟨err, ca2, t1, _, hq⟩ | ⟨ca2, t1, err, _, _, hq⟩ | ⟨ca2, t1, caPem, v2, t2, _, _, _, hq⟩
      | ⟨ca2, t1, caPem, o2, kps2, t2, h1, _, h3, hq⟩
  · rw [hq] at h; simp at h
  · rw [hq] at h; simp at h
  · rw [hq] at h; simp at h
  · rw [hq] at h
    simp only [Prod.mk.injEq, Outcome.ok.injEq] at h
    obtain ⟨⟨ho, _⟩, _⟩ := h
    subst ho
    rw [Init_names L ca ca2 s t1 none h1] at h3
    obtain ⟨hget, hkeys⟩ := loop_ok L ca2 kps _ _ _ _ _ h3
    constructor
    · intro k hk
      rw [List.mem_cons, not_or] at hk
      rw [hget k hk.2, get_set_other _ _ _ _ hk.1]
    · rw [hkeys, keys_set]
      rfl

theorem userFields_keys (o : OutputData) :
    (userFields o).keys = userFieldNames.foldl (fun ks k => insertKey k ks) o.keys := by
  simp only [userFields, keys_set, userFieldNames, List.foldl_cons, List.foldl_nil]

theorem userFields_get_congr (o1 o2 : OutputData) (k : String) (h : o1.get k = o2.get k) :
    (userFields o1).get k = (userFields o2).get k := by
  simp only [userFields, get_set, h]

/-- The keys after `AddSystemComponent`. -/
theorem AddSystemComponent_keys (o : OutputData) (name : String) (cfgFlags : Nat) :
    (o.AddSystemComponent name cfgFlags).keys =
      (fun ks2 : List String =>
        if cfgFlags &&& CfgWithHTTPSURL ≠ 0 then insertKey (name ++ "_url") ks2 else ks2)
      ((fun ks1 : List String =>
        if cfgFlags &&& CfgWithSubdomainURI ≠ 0 then insertKey (name ++ "_subdomain_uri") ks1
        else ks1)
      (insertKey (name ++ "_uri") o.keys)) := by
  rw [AddSystemComponent_eq]
  dsimp only
  split_ifs <;> simp only [keys_set]

/-- A value after `AddSystemComponent`. -/
theorem AddSystemComponent_get (o : OutputData) (name : String) (cfgFlags : Nat) (k : String) :
    (o.AddSystemComponent name cfgFlags).get k =
      if cfgFlags &&& CfgWithHTTPSURL ≠ 0 ∧ k = name ++ "_url" then
        some ("https://" ++ (name ++ "." ++ o.index "system_domain"))
      else if cfgFlags &&& CfgWithSubdomainURI ≠ 0 ∧ k = name ++ "_subdomain_uri" then
        some ("*." ++ (name ++ "." ++ o.index "system_domain"))
      else if k = name ++ "_uri" then some (name ++ "." ++ o.index "system_domain")
      else o.get k := by
  rw [AddSystemComponent_eq]
  dsimp only
  by_cases hs : cfgFlags &&& CfgWithSubdomainURI ≠ 0 <;>
    by_cases hh : cfgFlags &&& CfgWithHTTPSURL ≠ 0 <;>
    simp only [hs, hh, if_true, if_false, get_set, true_and, false_and, not_true_eq_false,
      not_false_eq_true, ne_eq]

theorem uriFields_keys (envName dnsBaseName : String) :
    (uriFields envName dnsBaseName).keys = uriFieldNames := by
  simp only [uriFields, keys_set, AddSystemComponent_keys]
  decide

set_option maxRecDepth 100000 in
/-- The assignments of a run, in order, reach each key of the manifest once. -/
theorem manifestKeys_fold :
    List.foldl (fun ks k => insertKey k ks)
      (List.foldl (fun ks k => insertKey k ks)
        (List.foldl (fun ks k => insertKey k ks)
          (List.foldl (fun ks k => insertKey k ks) uriFieldNames secretFields) userFieldNames)
        ["etcd_ca_cert", "etcd_server_cert", "etcd_server_key", "etcd_client_cert",
          "etcd_client_key"])
      ["etcd_peer_ca_cert", "etcd_peer_cert", "etcd_peer_key"] = manifestKeys := by
  decide

/-- The keys of the manifest of a successful run, and its values away from the
generated fields. -/
theorem assemble_ok {σ Key Cert CSR : Type} (L : Lib σ Key Cert CSR)
    (envName dnsBaseName : String) (s s1 : σ) (m : OutputData)
    (h : assemble L envName dnsBaseName s = (.ok m, s1)) :
    m.keys = manifestKeys
    ∧ ∀ k, k ∉ secretFields → k ∉ pemFields →
        m.get k = (userFields (uriFields envName dnsBaseName)).get k := by
  rcases assemble_cases L envName dnsBaseName s with
    ⟨v2, t1, _, hq⟩ | ⟨o1, t1, v2, t2, _, _, hq⟩
      | ⟨o1, t1, o2, ca1, kps1, t2, v2, t3, _, _, _, hq⟩
      | ⟨o1, t1, o2, ca1, kps1, t2, o3, ca2, kps2, t3, h1, h2, h3, hq⟩
  · rw [hq] at h; simp at h
  · rw [hq] at h; simp at h
  · rw [hq] at h; simp at h
  · rw [hq] at h
    simp only [Prod.mk.injEq, Outcome.ok.injEq] at h
    obtain ⟨ho, _⟩ := h
    subst ho
    obtain ⟨g1, k1⟩ := GeneratePasswords_ok L _ _ _ _ _ h1
    obtain ⟨g2, k2⟩ := GenerateCerts_ok L _ _ _ _ _ _ _ _ h2
    obtain ⟨g3, k3⟩ := GenerateCerts_ok L _ _ _ _ _ _ _ _ h3
    constructor
    · rw [k3, k2, userFields_keys, k1, uriFields_keys]
      simp only [etcdCA, etcdPeerCA, etcdServer, etcdClient, etcdPeer, leafFields]
      exact manifestKeys_fold
    · intro k hs hp
      have hp1 : k ∉ (etcdPeerCA : CA Key Cert).VarName_CA
          :: leafFields [(etcdPeer : CertKeyPair Key Cert)] := by
        intro hmem
        apply hp
        simp only [etcdPeerCA, etcdPeer, leafFields, List.mem_cons, List.not_mem_nil,
          or_false] at hmem
        simp only [pemFields, List.mem_cons, List.not_mem_nil, or_false]
        tauto
      have hp2 : k ∉ (etcdCA : CA Key Cert).VarName_CA
          :: leafFields [(etcdServer : CertKeyPair Key Cert), etcdClient] := by
        intro hmem
        apply hp
        simp only [etcdCA, etcdServer, etcdClient, leafFields, List.mem_cons,
          List.not_mem_nil, or_false] at hmem
        simp only [pemFields, List.mem_cons, List.not_mem_nil, or_false]
        tauto
      rw [g3 k hp1, g2 k hp2]
      exact userFields_get_congr _ _ k (g1 k hs)


/-! ## C2, C6 and C10: the manifest of a successful run -/

theorem index_set (o : OutputData) (k v k2 : String) :
    (o.set k v).index k2 = if k2 = k then v else o.index k2 := by
  unfold OutputData.index
  rw [get_set]
  split_ifs <;> rfl

theorem AddSystemComponent_index (o : OutputData) (name : String) (cfgFlags : Nat)
    (k : String) :
    (o.AddSystemComponent name cfgFlags).index k =
      if cfgFlags &&& CfgWithHTTPSURL ≠ 0 ∧ k = name ++ "_url" then
        "https://" ++ (name ++ "." ++ o.index "system_domain")
      else if cfgFlags &&& CfgWithSubdomainURI ≠ 0 ∧ k = name ++ "_subdomain_uri" then
        "*." ++ (name ++ "." ++ o.index "system_domain")
      else if k = name ++ "_uri" then name ++ "." ++ o.index "system_domain"
      else o.index k := by
  unfold OutputData.index
  rw [AddSystemComponent_get]
  split_ifs <;> rfl

/-- The domain and UAA fields as lines 65 to 125 leave them. -/
theorem uriFields_values (envName dnsBaseName : String) :
    (userFields (uriFields envName dnsBaseName)).get "system_domain"
        = some (envName ++ "." ++ dnsBaseName)
    ∧ (userFields (uriFields envName dnsBaseName)).get "app_domain"
        = some (envName ++ "." ++ dnsBaseName)
    ∧ (userFields (uriFields envName dnsBaseName)).get "uaa_uri"
        = some ("uaa." ++ (envName ++ "." ++ dnsBaseName))
    ∧ (userFields (uriFields envName dnsBaseName)).get "uaa_url"
        = some ("https://" ++ ("uaa." ++ (envName ++ "." ++ dnsBaseName)))
    ∧ (userFields (uriFields envName dnsBaseName)).get "uaa_token_url"
        = some ("https://" ++ ("uaa." ++ (envName ++ "." ++ dnsBaseName)) ++ "/oauth/token") := by
  refine ⟨?_, ?_, ?_, ?_, ?_⟩ <;>
    simp [userFields, uriFields, get_set, index_set, AddSystemComponent_get,
      AddSystemComponent_index, CfgNone, CfgWithSubdomainURI, CfgWithHTTPSURL]

/-- C2: the manifest of a successful run has `system_domain` and `app_domain`
equal to `env + "." + base`, `uaa_uri` equal to `"uaa." + system_domain`,
`uaa_url` equal to `"https://" + uaa_uri` and `uaa_token_url` equal to
`"https://" + uaa_uri + "/oauth/token"`; with `env = "myenv"` and
`base = "example.com"` these are the five strings of the specification. -/
theorem assemble_domains {σ Key Cert CSR : Type} (L : Lib σ Key Cert CSR)
    (envName dnsBaseName : String) (s s1 : σ) (m : OutputData)
    (hrun : assemble L envName dnsBaseName s = (.ok m, s1)) :
    m.get "system_domain" = some (envName ++ "." ++ dnsBaseName)
    ∧ m.get "app_domain" = some (envName ++ "." ++ dnsBaseName)
    ∧ m.get "uaa_uri" = some ("uaa." ++ (envName ++ "." ++ dnsBaseName))
    ∧ m.get "uaa_url" = some ("https://" ++ ("uaa." ++ (envName ++ "." ++ dnsBaseName)))
    ∧ m.get "uaa_token_url"
        = some ("https://" ++ ("uaa." ++ (envName ++ "." ++ dnsBaseName)) ++ "/oauth/token")
    ∧ (envName = "myenv" → dnsBaseName = "example.com" →
        m.get "system_domain" = some "myenv.example.com"
        ∧ m.get "app_domain" = some "myenv.example.com"
        ∧ m.get "uaa_uri" = some "uaa.myenv.example.com"
        ∧ m.get "uaa_url" = some "https://uaa.myenv.example.com"
        ∧ m.get "uaa_token_url" = some "https://uaa.myenv.example.com/oauth/token") := by
  obtain ⟨_, hget⟩ := assemble_ok L envName dnsBaseName s s1 m hrun
  obtain ⟨v1, v2, v3, v4, v5⟩ := uriFields_values envName dnsBaseName
  have g1 := hget "system_domain" (by decide) (by decide)
  have g2 := hget "app_domain" (by decide) (by decide)
  have g3 := hget "uaa_uri" (by decide) (by decide)
  have g4 := hget "uaa_url" (by decide) (by decide)
  have g5 := hget "uaa_token_url" (by decide) (by decide)
  rw [v1] at g1
  rw [v2] at g2
  rw [v3] at g3
  rw [v4] at g4
  rw [v5] at g5
  refine ⟨g1, g2, g3, g4, g5, ?_⟩
  intro he hb
  subst he hb
  rw [g1, g2, g3, g4, g5]
  decide

/-- C2 at a concrete input: the run with the default flags over the test
library. -/
theorem assemble_domains_witness :
    (testManifest 0).get "uaa_token_url" = some "https://uaa.myenv.example.com/oauth/token" :=
  ((assemble_domains (testLib 1000 true) "myenv" "example.com" 0 44 (testManifest 0) rfl).2.2.2.2.2
    rfl rfl).2.2.2.2

/-- C6 as stated fails: the manifest of the run with the default flags over the
test library holds two CA certificate fields and three leaf certificate/key
pairs, not four. -/
theorem testManifest_leaf_pairs :
    assemble (testLib 1000 true) "myenv" "example.com" 0 = (.ok (testManifest 0), 44)
    ∧ (caCertFields (testManifest 0)).length = 2
    ∧ (leafPairs (testManifest 0)).length = 3
    ∧ (leafPairs (testManifest 0)).length ≠ 4 :=
  ⟨rfl, by decide, by decide, by decide⟩

/-- C6, amended: the manifest of a successful run holds exactly two CA
certificate fields, `etcd_ca_cert` and `etcd_peer_ca_cert`, and exactly three
leaf certificate/key pairs, those of the server, the client and the peer; these
eight fields are the fields the two `GenerateCerts` calls assign. -/
theorem assemble_certificate_fields {σ Key Cert CSR : Type} (L : Lib σ Key Cert CSR)
    (envName dnsBaseName : String) (s s1 : σ) (m : OutputData)
    (hrun : assemble L envName dnsBaseName s = (.ok m, s1)) :
    caCertFields m = ["etcd_ca_cert", "etcd_peer_ca_cert"]
    ∧ leafPairs m = [("etcd_server_cert", "etcd_server_key"),
        ("etcd_client_cert", "etcd_client_key"), ("etcd_peer_cert", "etcd_peer_key")]
    ∧ (caCertFields m).length = 2
    ∧ (leafPairs m).length = 3
    ∧ (∀ k, k ∈ pemFields ↔ (k ∈ caCertFields m ∨ ∃ p ∈ leafPairs m, k = p.1 ∨ k = p.2)) := by
  obtain ⟨hkeys, _⟩ := assemble_ok L envName dnsBaseName s s1 m hrun
  have h1 : caCertFields m = ["etcd_ca_cert", "etcd_peer_ca_cert"] := by
    unfold caCertFields
    rw [hkeys]
    decide
  have h2 : leafPairs m = [("etcd_server_cert", "etcd_server_key"),
      ("etcd_client_cert", "etcd_client_key"), ("etcd_peer_cert", "etcd_peer_key")] := by
    unfold leafPairs leafCertFields
    rw [hkeys]
    decide
  refine ⟨h1, h2, by rw [h1]; rfl, by rw [h2]; rfl, ?_⟩
  intro k
  rw [h1, h2]
  simp only [pemFields, List.mem_cons, List.mem_singleton, List.not_mem_nil, or_false,
    exists_eq_or_imp, exists_eq_left]
  tauto

/-- C6, amended, at a concrete input: the run with the default flags over the
test library. -/
theorem assemble_certificate_fields_witness :
    leafPairs (testManifest 0) = [("etcd_server_cert", "etcd_server_key"),
      ("etcd_client_cert", "etcd_client_key"), ("etcd_peer_cert", "etcd_peer_key")] :=
  (assemble_certificate_fields (testLib 1000 true) "myenv" "example.com" 0 44 (testManifest 0)
    rfl).2.1

/-- C10: two successful runs with the same `env` and `dns-base`, over any two
libraries and from any two library states, give manifests with the same keys
and the same value at every key that is neither one of the 31 secret fields nor
one of the 8 PEM fields. -/
theorem assemble_deterministic {σ Key Cert CSR τ Key2 Cert2 CSR2 : Type}
    (L : Lib σ Key Cert CSR) (L2 : Lib τ Key2 Cert2 CSR2) (envName dnsBaseName : String)
    (s s1 : σ) (t t1 : τ) (m m2 : OutputData)
    (hrun : assemble L envName dnsBaseName s = (.ok m, s1))
    (hrun2 : assemble L2 envName dnsBaseName t = (.ok m2, t1)) :
    (∀ k, k ∈ m.keys ↔ k ∈ m2.keys)
    ∧ (∀ k, k ∉ secretFields → k ∉ pemFields → m.get k = m2.get k)
    ∧ secretFields.length = 31
    ∧ pemFields.length = 8 := by
  obtain ⟨hk, hg⟩ := assemble_ok L envName dnsBaseName s s1 m hrun
  obtain ⟨hk2, hg2⟩ := assemble_ok L2 envName dnsBaseName t t1 m2 hrun2
  refine ⟨?_, ?_, by decide, by decide⟩
  · intro k
    rw [hk, hk2]
  · intro k h1 h2
    rw [hg k h1 h2, hg2 k h1 h2]

/-- C10 at a concrete input: two runs with the default flags over the test
library, started in states 0 and 7, whose secrets differ. -/
theorem assemble_deterministic_witness :
    (testManifest 0).get "nats_password" ≠ (testManifest 7).get "nats_password"
    ∧ (testManifest 0).get "blobstore_public_url"
        = (testManifest 7).get "blobstore_public_url" :=
  ⟨by decide,
    (assemble_deterministic (testLib 1000 true) (testLib 1000 true) "myenv" "example.com"
      0 44 7 51 (testManifest 0) (testManifest 7) rfl rfl).2.1 "blobstore_public_url"
      (by decide) (by decide)⟩

end CfFiller
